import Mathlib

/-!
# Ember debug printers: decimal output of 64-bit integers

A shallow embedding of the four print routines of `asm/x86-64/print` and
`asm/x86-64_linux/print`:

* `__PRINTU__`  (`asm/x86-64/print/printu.c`)
* `__PRINTI__`  (`asm/x86-64/print/printi.c`)
* `PRINTUINT`   (`asm/x86-64_linux/print/printu.c`)
* `PRINTINT`    (`asm/x86-64_linux/print/printi.c`)

Each routine owns a 32-byte stack buffer that it fills from index 31 downwards
and hands a suffix of it to `write(1, ...)`.  The embedding keeps the buffer
cell by cell (`none` is a byte that has not been assigned in this call), the
fill cursor `bufferSize`, and the list of indices stored to; the bytes handed
to `write` are the observable output.  The `do ... while` loops run on fuel.
-/

namespace Ember

/-! ## Machine integers -/

/-- Two's-complement reduction to `long long int` (64 bits). -/
def wrapS64 (v : Int) : Int :=
  (v + 9223372036854775808) % 18446744073709551616 - 9223372036854775808

/-- Reduction to `int` (32 bits). -/
def wrapS32 (v : Int) : Int :=
  (v + 2147483648) % 4294967296 - 2147483648

/-- Reduction to `unsigned short int` (16 bits). -/
def wrapU16 (v : Int) : Int := v % 65536

/-- Conversion to `unsigned long long int` (64 bits). -/
def wrapU64 (v : Int) : Nat := (v % 18446744073709551616).toNat

/-- Conversion of an integer expression to the byte stored in a `char` cell. -/
def toChar (v : Int) : Nat := (v % 256).toNat

/-- The values of `long long int`. -/
def inS64 (v : Int) : Prop := -9223372036854775808 ≤ v ∧ v ≤ 9223372036854775807

instance (v : Int) : Decidable (inS64 v) := by
  unfold inS64; infer_instance

/-- The values of `unsigned long long int`. -/
def inU64 (v : Nat) : Prop := v < 18446744073709551616

instance (v : Nat) : Decidable (inU64 v) := by
  unfold inU64; infer_instance

/-! ## The stack frame: buffer, fill cursor, store log -/

/-- The macro `BUFFER_CAPACITY` (32 in all four files). -/
def BUFFER_CAPACITY : Int := 32

/-- The locals of one call: `char buffer[BUFFER_CAPACITY]` (a cell is `none`
until it is assigned), the fill cursor `bufferSize`, and the indices of the
buffer that have been stored to, oldest first. -/
structure Frame where
  buffer : List (Option Nat)
  bufferSize : Int
  stores : List Int
  deriving DecidableEq, Repr

/-- A fresh frame: `char buffer[BUFFER_CAPACITY];` with the cursor initialised. -/
def Frame.alloc (bufferSize : Int) : Frame :=
  { buffer := List.replicate BUFFER_CAPACITY.toNat none, bufferSize := bufferSize, stores := [] }

/-- The assignment `buffer[i] = b`: fails when `i` is not an index of the buffer. -/
def Frame.store (f : Frame) (i : Int) (b : Nat) : Option Frame :=
  if 0 ≤ i ∧ i < BUFFER_CAPACITY then
    some { f with buffer := f.buffer.set i.toNat (some b), stores := f.stores ++ [i] }
  else none

/-- All cells of a slice, provided each of them has been assigned. -/
def allAssigned : List (Option Nat) → Option (List Nat)
  | [] => some []
  | none :: _ => none
  | some b :: rest => (allAssigned rest).map (fun bs => b :: bs)

/-- The call `write(1, &buffer[start], count)`: the bytes it hands to standard
output.  Fails when the slice leaves the buffer or reads an unassigned cell. -/
def Frame.write (f : Frame) (start : Int) (count : Int) : Option (List Nat) :=
  if 0 ≤ start ∧ 0 ≤ count ∧ start + count ≤ BUFFER_CAPACITY then
    allAssigned ((f.buffer.drop start.toNat).take count.toNat)
  else none

/-- What a call leaves behind: its final frame and the bytes it wrote. -/
structure Outcome where
  frame : Frame
  out : List Nat
  deriving DecidableEq, Repr

/-- The loop `do body while (cond);` on fuel: the body runs first, the test
follows; `none` when the body fails or the fuel runs out. -/
def doWhile {σ : Type} (body : σ → Option σ) (cond : σ → Bool) : Nat → σ → Option σ
  | 0, _ => none
  | fuel + 1, s =>
    match body s with
    | none => none
    | some s' => if cond s' then doWhile body cond fuel s' else some s'

/-- The state after `k` runs of a loop body, started in `s`. -/
def iterate {σ : Type} (body : σ → Option σ) : Nat → σ → Option σ
  | 0, s => some s
  | k + 1, s =>
    match body s with
    | none => none
    | some s' => iterate body k s'

/-! ## `asm/x86-64/print/printu.c` -/

/-- Loop body of `__PRINTU__` (lines 18-19) on the pair `(x, frame)`:
`buffer[BUFFER_CAPACITY - 1 - (bufferSize++)] = x % 10 + '0'; x /= 10;`
with `bufferSize` an `unsigned short int`. -/
def PRINTU_body (s : Nat × Frame) : Option (Nat × Frame) :=
  match s.2.store (BUFFER_CAPACITY - 1 - s.2.bufferSize) (toChar ((s.1 % 10 : Nat) + 48)) with
  | none => none
  | some f => some (s.1 / 10, { f with bufferSize := wrapU16 (s.2.bufferSize + 1) })

/-- Lines 13-15 of `__PRINTU__`, up to the loop: the buffer, the cursor at 1,
`buffer[BUFFER_CAPACITY - 1] = '\n';`. -/
def PRINTU_entry (x : Nat) : Option (Nat × Frame) :=
  match (Frame.alloc 1).store (BUFFER_CAPACITY - 1) 10 with
  | none => none
  | some f0 => some (x, f0)

/-- The routine `__PRINTU__(unsigned long long int x)`. -/
def __PRINTU__ (fuel : Nat) (x : Nat) : Option Outcome :=
  match PRINTU_entry x with
  | none => none
  | some s0 =>
    match doWhile PRINTU_body (fun s => decide (s.1 ≠ 0)) fuel s0 with
    | none => none
    | some (_, f) =>
      match f.write (BUFFER_CAPACITY - f.bufferSize) f.bufferSize with
      | none => none
      | some bytes => some ⟨f, bytes⟩

/-! ## `asm/x86-64/print/printi.c` -/

/-- Line 17 of `__PRINTI__`, `x = (x < 0) ? x * -1 - 1 : x;`, every operation
reduced to 64 bits. -/
def PRINTI_magnitude (x : Int) : Int :=
  if x < 0 then wrapS64 (wrapS64 (x * -1) - 1) else x

/-- Line 17 of `__PRINTI__` with checked arithmetic: `none` as soon as an
intermediate result is not a `long long int`. -/
def PRINTI_magnitude_checked (x : Int) : Option Int :=
  if x < 0 then
    if inS64 (x * -1) then
      if inS64 (x * -1 - 1) then some (x * -1 - 1) else none
    else none
  else some x

/-- Loop body of `__PRINTI__` (lines 20-21) on the pair `(x, frame)`:
`buffer[BUFFER_CAPACITY - 1 - (bufferSize++)] =
   x % 10 + '0' + (isNegative && bufferSize == 1 ? 1 : 0); x /= 10;`
The test `bufferSize == 1` sees the cursor before the post-increment (the
order under which the literals of `main.c` print as themselves); `%` and `/`
are the truncating operations of C. -/
def PRINTI_body (isNegative : Bool) (s : Int × Frame) : Option (Int × Frame) :=
  match s.2.store (BUFFER_CAPACITY - 1 - s.2.bufferSize)
      (toChar (Int.tmod s.1 10 + 48 + (if isNegative = true ∧ s.2.bufferSize = 1 then 1 else 0))) with
  | none => none
  | some f => some (Int.tdiv s.1 10, { f with bufferSize := wrapU16 (s.2.bufferSize + 1) })

/-- Lines 13-17 of `__PRINTI__`, up to the loop: the buffer, the cursor at 1,
`buffer[BUFFER_CAPACITY - 1] = '\n';` and the new value of `x`. -/
def PRINTI_entry (x : Int) : Option (Int × Frame) :=
  match (Frame.alloc 1).store (BUFFER_CAPACITY - 1) 10 with
  | none => none
  | some f0 => some (PRINTI_magnitude x, f0)

/-- The routine `__PRINTI__(long long int x)`. -/
def __PRINTI__ (fuel : Nat) (x : Int) : Option Outcome :=
  match PRINTI_entry x with
  | none => none
  | some s0 =>
    let isNegative : Bool := decide (x < 0)
    match doWhile (PRINTI_body isNegative) (fun s => decide (s.1 ≠ 0)) fuel s0 with
    | none => none
    | some (_, f1) =>
      let signed : Option Frame :=
        if isNegative = true then
          match f1.store (BUFFER_CAPACITY - 1 - f1.bufferSize) 45 with
          | none => none
          | some g => some { g with bufferSize := wrapU16 (f1.bufferSize + 1) }
        else some f1
      match signed with
      | none => none
      | some f =>
        match f.write (BUFFER_CAPACITY - f.bufferSize) f.bufferSize with
        | none => none
        | some bytes => some ⟨f, bytes⟩

/-! ## `asm/x86-64_linux/print/printu.c` -/

/-- Loop body of `PRINTUINT` (lines 21-23) on the pair `(value, frame)`:
`char output = value % 10 + '0';
 buffer[BUFFER_CAPACITY - 1 - (bufferSize++)] = output; value /= 10;`
with `bufferSize` an `int`. -/
def PRINTUINT_body (s : Nat × Frame) : Option (Nat × Frame) :=
  let output : Nat := toChar ((s.1 % 10 : Nat) + 48)
  match s.2.store (wrapS32 (BUFFER_CAPACITY - 1 - s.2.bufferSize)) output with
  | none => none
  | some f => some (s.1 / 10, { f with bufferSize := wrapS32 (s.2.bufferSize + 1) })

/-- Lines 15-17 of `PRINTUINT`, up to the loop: the cursor at 1, the buffer,
`buffer[BUFFER_CAPACITY - 1] = '\n';`. -/
def PRINTUINT_entry (value : Nat) : Option (Nat × Frame) :=
  match (Frame.alloc 1).store (BUFFER_CAPACITY - 1) 10 with
  | none => none
  | some f0 => some (value, f0)

/-- The routine `PRINTUINT(unsigned long long int value)`. -/
def PRINTUINT (fuel : Nat) (value : Nat) : Option Outcome :=
  match PRINTUINT_entry value with
  | none => none
  | some s0 =>
    match doWhile PRINTUINT_body (fun s => decide (s.1 ≠ 0)) fuel s0 with
    | none => none
    | some (_, f) =>
      match f.write (wrapS32 (BUFFER_CAPACITY - f.bufferSize)) f.bufferSize with
      | none => none
      | some bytes => some ⟨f, bytes⟩

/-! ## `asm/x86-64_linux/print/printi.c` -/

/-- Lines 19-21 of `PRINTINT`: `if (isNegative) value *= -1;` with the product
reduced to 64 bits, then the cast `(unsigned long long int)value`. -/
def PRINTINT_uValue (value : Int) : Nat :=
  wrapU64 (if value < 0 then wrapS64 (value * -1) else value)

/-- Loop body of `PRINTINT` (lines 25-26) on the pair `(uValue, frame)`:
`buffer[BUFFER_CAPACITY - 1 - (bufferSize++)] = uValue % 10 + '0'; uValue /= 10;`
with `bufferSize` an `int`. -/
def PRINTINT_body (s : Nat × Frame) : Option (Nat × Frame) :=
  match s.2.store (wrapS32 (BUFFER_CAPACITY - 1 - s.2.bufferSize))
      (toChar ((s.1 % 10 : Nat) + 48)) with
  | none => none
  | some f => some (s.1 / 10, { f with bufferSize := wrapS32 (s.2.bufferSize + 1) })

/-- Lines 15-21 of `PRINTINT`, up to the loop: the cursor at 1, the buffer,
`buffer[BUFFER_CAPACITY - 1] = '\n';` and `uValue`. -/
def PRINTINT_entry (value : Int) : Option (Nat × Frame) :=
  match (Frame.alloc 1).store (BUFFER_CAPACITY - 1) 10 with
  | none => none
  | some f0 => some (PRINTINT_uValue value, f0)

/-- The routine `PRINTINT(long long int value)`. -/
def PRINTINT (fuel : Nat) (value : Int) : Option Outcome :=
  match PRINTINT_entry value with
  | none => none
  | some s0 =>
    let isNegative : Bool := decide (value < 0)
    match doWhile PRINTINT_body (fun s => decide (s.1 ≠ 0)) fuel s0 with
    | none => none
    | some (_, f1) =>
      let signed : Option Frame :=
        if isNegative = true then
          match f1.store (wrapS32 (BUFFER_CAPACITY - 1 - f1.bufferSize)) 45 with
          | none => none
          | some g => some { g with bufferSize := wrapS32 (f1.bufferSize + 1) }
        else some f1
      match signed with
      | none => none
      | some f =>
        match f.write (wrapS32 (BUFFER_CAPACITY - f.bufferSize)) f.bufferSize with
        | none => none
        | some bytes => some ⟨f, bytes⟩

/-! ## Reference notions: decimal text -/

/-- The bytes of a string. -/
def bytesOf (s : String) : List Nat := s.toList.map Char.toNat

/-- The decimal text of a natural number, as bytes. -/
def natText (n : Nat) : List Nat := bytesOf (Nat.repr n)

/-- The decimal text of an integer, as bytes: a `-` in front of the text of
the magnitude when the integer is negative. -/
def intText (x : Int) : List Nat := bytesOf (Int.repr x)

/-! ## Reference notions: reading decimal text back -/

/-- Reads a run of characters `'0'`..`'9'` in base 10, continuing from `acc`. -/
def parseDigitsAux : Nat → List Nat → Option Nat
  | acc, [] => some acc
  | acc, b :: bs =>
    if 48 ≤ b ∧ b ≤ 57 then parseDigitsAux (acc * 10 + (b - 48)) bs else none

/-- Reads one or more characters `'0'`..`'9'` as a natural number in base 10. -/
def parseDigits (bs : List Nat) : Option Nat :=
  if bs = [] then none else parseDigitsAux 0 bs

/-- Reads a base-10 signed integer: an optional leading `-`, then one or
more characters `'0'`..`'9'`. -/
def parseSigned (bs : List Nat) : Option Int :=
  if bs.head? = some 45 then (parseDigits bs.tail).map (fun (n : Nat) => -(n : Int))
  else (parseDigits bs).map (fun (n : Nat) => (n : Int))

/-! ## Reference notions: shape of an output and of a frame -/

/-- Every byte is an ASCII digit, except that the last byte is the line
terminator and the first byte may be `-`. -/
def OnlyDigitsSignNewline (out : List Nat) : Prop :=
  out.getLast? = some 10 ∧
  ∀ i : Fin out.length, i.val + 1 < out.length →
    (48 ≤ out.get i ∧ out.get i ≤ 57) ∨ (i.val = 0 ∧ out.get i = 45)

instance (out : List Nat) : Decidable (OnlyDigitsSignNewline out) := by
  unfold OnlyDigitsSignNewline; infer_instance

/-- Buffer safety of a finished call: every index stored to is an index of
the buffer, the cursor is at most 21, and the slice handed to `write` starts
at a non-negative index. -/
def BufferSafe (r : Outcome) : Prop :=
  (∀ i ∈ r.frame.stores, 0 ≤ i ∧ i < BUFFER_CAPACITY) ∧
  r.frame.bufferSize ≤ 21 ∧ r.frame.bufferSize ≤ BUFFER_CAPACITY ∧
  0 ≤ BUFFER_CAPACITY - r.frame.bufferSize

/-- The cursor of the frame is `c`, the buffer has its 32 cells, cell 31 holds
the line terminator, and the assigned cells are exactly those of index
`32 - c` .. `31`. -/
def FilledSuffix (f : Frame) (c : Nat) : Prop :=
  f.bufferSize = (c : Int) ∧ f.buffer.length = 32 ∧ f.buffer[31]? = some (some 10) ∧
  ∀ i : Nat, i < 32 → (f.buffer[i]? = some none ↔ i + c < 32)

/-- The bytes handed to `write` are the cells `32 - bufferSize` .. `31` of the
buffer, each of them assigned. -/
def EmitsFilledSlice (r : Outcome) : Prop :=
  r.out.map some = r.frame.buffer.drop (BUFFER_CAPACITY - r.frame.bufferSize).toNat ∧
  (r.out.length : Int) = r.frame.bufferSize

/-- Index 31 is stored to once, by the first store of the call. -/
def TerminatorKept (f : Frame) : Prop :=
  f.stores.head? = some 31 ∧ ∀ i ∈ f.stores.tail, i < 31

/-! ## Auxiliary notions for the proofs -/

/-- The frame in which exactly the suffix `acc` of the buffer has been filled,
one store per byte, from index 31 downwards. -/
def frameOf (acc : List Nat) : Frame :=
  { buffer := List.replicate (32 - acc.length) none ++ acc.map some
    bufferSize := (acc.length : Int)
    stores := (List.range acc.length).map (fun (i : Nat) => (31 : Int) - (i : Int)) }

/-- The digit bytes `__PRINTI__` stores, most significant first: for `x < 0`,
with `m = -x - 1`, the decimal text of `m / 10` when that is not zero and then
the byte `'0' + m % 10 + 1`; for `x ≥ 0` the decimal text of `x`. -/
def PRINTI_digits (x : Int) : List Nat :=
  if x < 0 then
    (if (-x - 1).toNat / 10 = 0 then [] else natText ((-x - 1).toNat / 10))
      ++ [(-x - 1).toNat % 10 + 49]
  else natText x.toNat

/-- The bytes `__PRINTI__` puts in front of the terminator: its digit bytes,
after a `-` when `x < 0`. -/
def PRINTI_text (x : Int) : List Nat :=
  if x < 0 then 45 :: PRINTI_digits x else PRINTI_digits x

/-- The invariant of one call, from the entry state through the digit loop to
the `write`: the call returns; the loop ends in the state reached after `n`
runs of its body; after `k ≤ n` runs the cursor is `k + 1` and exactly the
cells `31 - k` .. `31` are assigned, the terminator in cell 31; the final
frame has the same shape with `n + 1 + sign` cells, its first store was the
terminator and no later store touched cell 31; and the bytes written are the
assigned cells `32 - bufferSize` .. `31`. -/
def CallInvariant {α : Type} (entry : Option (α × Frame))
    (body : α × Frame → Option (α × Frame)) (cond : α × Frame → Bool) (fuel : Nat)
    (sign : Nat) (result : Option Outcome) : Prop :=
  ∃ (r : Outcome) (s0 sn : α × Frame) (n : Nat),
    result = some r ∧ entry = some s0 ∧
    doWhile body cond fuel s0 = some sn ∧ iterate body n s0 = some sn ∧
    (∀ k, k ≤ n → ∃ s, iterate body k s0 = some s ∧ FilledSuffix s.2 (k + 1)) ∧
    FilledSuffix r.frame (n + 1 + sign) ∧ TerminatorKept r.frame ∧ EmitsFilledSlice r

/-- Termination of a digit loop, with the loop variable read through `val`:
the entry state exists and its loop variable is non-negative; the loop runs
its body exactly `n` times, `1 ≤ n ≤ bound` (it returns the state after `n`
runs on any fuel of at least `n`, and runs out of fuel below `n`); the loop
variable is 0 at the exit; and each of the `n` runs divides a non-negative
loop variable by 10, which makes it strictly smaller when it was positive,
the test after the run holding exactly when the result is not 0. -/
def LoopTerminates {α : Type} (entry : Option (α × Frame))
    (body : α × Frame → Option (α × Frame)) (cond : α × Frame → Bool) (val : α → Int)
    (bound : Nat) : Prop :=
  ∃ (s0 sn : α × Frame) (n : Nat),
    entry = some s0 ∧ 0 ≤ val s0.1 ∧ 1 ≤ n ∧ n ≤ bound ∧
    (∀ fuel, n ≤ fuel → doWhile body cond fuel s0 = some sn) ∧
    (∀ fuel, fuel < n → doWhile body cond fuel s0 = none) ∧
    iterate body n s0 = some sn ∧ val sn.1 = 0 ∧
    (∀ k, k < n → ∃ sk sk', iterate body k s0 = some sk ∧ body sk = some sk' ∧
      0 ≤ val sk.1 ∧ val sk'.1 = val sk.1 / 10 ∧ (0 < val sk.1 → val sk'.1 < val sk.1) ∧
      (cond sk' = true ↔ val sk'.1 ≠ 0) ∧ (k + 1 < n → val sk'.1 ≠ 0))

/-! ## Auxiliary facts -/

theorem set_replicate_none (b : Nat) (l : List (Option Nat)) :
    ∀ n : Nat, (List.replicate (n + 1) none ++ l).set n (some b)
      = List.replicate n none ++ some b :: l := by
  intro n
  induction n with
  | zero => simp
  | succ n ih =>
    rw [List.replicate_succ, List.cons_append, List.set_cons_succ, ih]
    simp [List.replicate_succ]

theorem alloc_store : (Frame.alloc 1).store (BUFFER_CAPACITY - 1) 10 = some (frameOf [10]) := by
  decide

theorem PRINTU_entry_eq (x : Nat) : PRINTU_entry x = some (x, frameOf [10]) := by
  unfold PRINTU_entry; rw [alloc_store]

theorem PRINTUINT_entry_eq (x : Nat) : PRINTUINT_entry x = some (x, frameOf [10]) := by
  unfold PRINTUINT_entry; rw [alloc_store]

theorem PRINTI_entry_eq (x : Int) : PRINTI_entry x = some (PRINTI_magnitude x, frameOf [10]) := by
  unfold PRINTI_entry; rw [alloc_store]

theorem PRINTINT_entry_eq (x : Int) :
    PRINTINT_entry x = some (PRINTINT_uValue x, frameOf [10]) := by
  unfold PRINTINT_entry; rw [alloc_store]

theorem frameOf_store (acc : List Nat) (b : Nat) (i : Int) (h : acc.length < 32)
    (hi : i = 31 - (acc.length : Int)) :
    (frameOf acc).store i b
      = some { frameOf (b :: acc) with bufferSize := (acc.length : Int) } := by
  subst hi
  have hidx : ((31 : Int) - (acc.length : Int)).toNat = 31 - acc.length := by omega
  have hrep : 32 - acc.length = (31 - acc.length) + 1 := by omega
  have hrep2 : 32 - (acc.length + 1) = 31 - acc.length := by omega
  unfold Frame.store
  rw [if_pos (by unfold BUFFER_CAPACITY; omega)]
  simp only [frameOf, hidx, List.length_cons, List.map_cons, hrep2]
  rw [hrep, set_replicate_none, List.range_succ, List.map_append]
  simp

theorem wrapU16_small (v : Int) (h0 : 0 ≤ v) (h1 : v < 65536) : wrapU16 v = v := by
  unfold wrapU16; omega

theorem wrapS32_small (v : Int) (h0 : -2147483648 ≤ v) (h1 : v < 2147483648) : wrapS32 v = v := by
  unfold wrapS32; omega

theorem toChar_digit (d : Nat) (h : d < 208) : toChar ((d : Int) + 48) = d + 48 := by
  unfold toChar; omega


/-! ### Decimal text, one digit at a time -/

theorem digitChar_toNat (d : Nat) (h : d < 10) : (Nat.digitChar d).toNat = d + 48 := by
  interval_cases d <;> rfl

theorem toDigitsCore_append (fuel : Nat) : ∀ (v : Nat) (acc : List Char),
    Nat.toDigitsCore 10 fuel v acc = Nat.toDigitsCore 10 fuel v [] ++ acc := by
  induction fuel with
  | zero => intro v acc; simp [Nat.toDigitsCore]
  | succ fuel ih =>
    intro v acc
    simp only [Nat.toDigitsCore]
    split
    · simp
    · rw [ih (v / 10) (Nat.digitChar (v % 10) :: acc), ih (v / 10) [Nat.digitChar (v % 10)]]
      simp

theorem toDigitsCore_fuel (fuel₁ : Nat) : ∀ (fuel₂ v : Nat) (acc : List Char),
    v < fuel₁ → v < fuel₂ →
    Nat.toDigitsCore 10 fuel₁ v acc = Nat.toDigitsCore 10 fuel₂ v acc := by
  induction fuel₁ with
  | zero => intro fuel₂ v acc h; omega
  | succ fuel₁ ih =>
    intro fuel₂ v acc h₁ h₂
    cases fuel₂ with
    | zero => omega
    | succ fuel₂ =>
      simp only [Nat.toDigitsCore]
      split
      · rfl
      · rename_i hne
        have : v / 10 < v := Nat.div_lt_self (by omega) (by decide)
        exact ih fuel₂ (v / 10) _ (by omega) (by omega)

theorem natText_eq (v : Nat) :
    natText v = (Nat.toDigitsCore 10 (v + 1) v []).map Char.toNat := by
  simp [natText, bytesOf, Nat.repr, Nat.toDigits, List.asString]

theorem natText_lt10 (v : Nat) (h : v < 10) : natText v = [v + 48] := by
  rw [natText_eq]
  simp only [Nat.toDigitsCore]
  rw [if_pos (by omega), Nat.mod_eq_of_lt h]
  simp [digitChar_toNat v h]

theorem natText_ge10 (v : Nat) (h : 10 ≤ v) : natText v = natText (v / 10) ++ [v % 10 + 48] := by
  have h1 : Nat.toDigitsCore 10 (v + 1) v []
      = Nat.toDigitsCore 10 v (v / 10) [Nat.digitChar (v % 10)] := by
    simp only [Nat.toDigitsCore]
    rw [if_neg (by omega)]
  rw [natText_eq v, natText_eq (v / 10), h1, toDigitsCore_append,
    toDigitsCore_fuel v (v / 10 + 1) (v / 10) [] (by omega) (by omega)]
  simp [digitChar_toNat (v % 10) (Nat.mod_lt _ (by decide))]

theorem natText_step (v : Nat) (acc : List Nat) (h : v / 10 ≠ 0) :
    natText (v / 10) ++ (v % 10 + 48) :: acc = natText v ++ acc := by
  rw [natText_ge10 v (by omega)]; simp

theorem natText_length_pos (v : Nat) : 1 ≤ (natText v).length := by
  by_cases h : v < 10
  · rw [natText_lt10 v h]; simp
  · rw [natText_ge10 v (by omega)]; simp

theorem natText_length_le : ∀ (d v : Nat), v < 10 ^ (d + 1) → (natText v).length ≤ d + 1 := by
  intro d
  induction d with
  | zero => intro v h; rw [natText_lt10 v (by simpa using h)]; simp
  | succ d ih =>
    intro v h
    by_cases h10 : v < 10
    · rw [natText_lt10 v h10]; simp
    · rw [natText_ge10 v (by omega)]
      have : v / 10 < 10 ^ (d + 1) := by
        rw [Nat.div_lt_iff_lt_mul (by decide)]
        calc v < 10 ^ (d + 1 + 1) := h
          _ = 10 ^ (d + 1) * 10 := by ring
      have := ih (v / 10) this
      simp; omega

/-! ### The digit loop -/

theorem doWhile_digits {α : Type} (inj : Nat → α) (body : α × Frame → Option (α × Frame))
    (cond : α × Frame → Bool) (lo : Nat)
    (hbody : ∀ (v : Nat) (acc : List Nat), lo ≤ acc.length → acc.length < 32 →
      body (inj v, frameOf acc) = some (inj (v / 10), frameOf ((v % 10 + 48) :: acc)))
    (hcond : ∀ (v : Nat) (f : Frame), cond (inj v, f) = decide (v ≠ 0)) :
    ∀ (d fuel v : Nat) (acc : List Nat), v < 10 ^ (d + 1) → d + 1 ≤ fuel →
      lo ≤ acc.length → acc.length + (d + 1) ≤ 32 →
      doWhile body cond fuel (inj v, frameOf acc) = some (inj 0, frameOf (natText v ++ acc)) := by
  intro d
  induction d with
  | zero =>
    intro fuel v acc hv hf hlo hlen
    obtain ⟨fuel, rfl⟩ : ∃ k, fuel = k + 1 := ⟨fuel - 1, by omega⟩
    have hv10 : v < 10 := by simpa using hv
    have hz : v / 10 = 0 := by omega
    simp only [doWhile]
    rw [hbody v acc hlo (by omega)]
    simp only [hcond, hz, natText_lt10 v hv10, Nat.mod_eq_of_lt hv10]
    simp
  | succ d ih =>
    intro fuel v acc hv hf hlo hlen
    obtain ⟨fuel, rfl⟩ : ∃ k, fuel = k + 1 := ⟨fuel - 1, by omega⟩
    simp only [doWhile]
    rw [hbody v acc hlo (by omega)]
    simp only [hcond]
    by_cases hz : v / 10 = 0
    · have hv10 : v < 10 := by omega
      simp only [hz, natText_lt10 v hv10, Nat.mod_eq_of_lt hv10]
      simp
    · have hlt : v / 10 < 10 ^ (d + 1) := by
        rw [Nat.div_lt_iff_lt_mul (by decide)]
        calc v < 10 ^ (d + 1 + 1) := hv
          _ = 10 ^ (d + 1) * 10 := by ring
      simp only [hz, ne_eq, not_false_eq_true, decide_True, if_true]
      rw [ih fuel (v / 10) ((v % 10 + 48) :: acc) hlt (by omega)
        (by simp; omega) (by simp; omega), natText_step v acc hz]


theorem iterate_digits {α : Type} (inj : Nat → α) (body : α × Frame → Option (α × Frame))
    (lo : Nat)
    (hbody : ∀ (v : Nat) (acc : List Nat), lo ≤ acc.length → acc.length < 32 →
      body (inj v, frameOf acc) = some (inj (v / 10), frameOf ((v % 10 + 48) :: acc))) :
    ∀ (d v : Nat) (acc : List Nat), v < 10 ^ (d + 1) →
      lo ≤ acc.length → acc.length + (d + 1) ≤ 32 →
      iterate body (natText v).length (inj v, frameOf acc)
        = some (inj 0, frameOf (natText v ++ acc)) := by
  intro d
  induction d with
  | zero =>
    intro v acc hv hlo hlen
    have hv10 : v < 10 := by simpa using hv
    have hz : v / 10 = 0 := by omega
    rw [natText_lt10 v hv10]
    simp only [List.length_singleton, iterate, hbody v acc hlo (by omega), hz,
      Nat.mod_eq_of_lt hv10]
    rfl
  | succ d ih =>
    intro v acc hv hlo hlen
    by_cases hz : v / 10 = 0
    · have hv10 : v < 10 := by omega
      rw [natText_lt10 v hv10]
      simp only [List.length_singleton, iterate, hbody v acc hlo (by omega), hz,
        Nat.mod_eq_of_lt hv10]
      rfl
    · have hlt : v / 10 < 10 ^ (d + 1) := by
        rw [Nat.div_lt_iff_lt_mul (by decide)]
        calc v < 10 ^ (d + 1 + 1) := hv
          _ = 10 ^ (d + 1) * 10 := by ring
      have hlen' : (natText v).length = (natText (v / 10)).length + 1 := by
        rw [natText_ge10 v (by omega)]; simp
      rw [hlen']
      simp only [iterate, hbody v acc hlo (by omega)]
      rw [ih (v / 10) ((v % 10 + 48) :: acc) hlt (by simp; omega) (by simp; omega),
        natText_step v acc hz]

/-! ### The four loop bodies on a filled suffix -/

theorem frameOf_bump (b : Nat) (acc : List Nat) (c : Int) (hc : c = (acc.length : Int) + 1) :
    ({ frameOf (b :: acc) with bufferSize := (acc.length : Int) } : Frame).bufferSize = acc.length ∧
    ({ ({ frameOf (b :: acc) with bufferSize := (acc.length : Int) } : Frame) with
        bufferSize := c } : Frame) = frameOf (b :: acc) := by
  subst hc
  simp [frameOf]

theorem PRINTU_body_frameOf (v : Nat) (acc : List Nat) (_h1 : 1 ≤ acc.length)
    (h2 : acc.length < 32) :
    PRINTU_body (v, frameOf acc) = some (v / 10, frameOf ((v % 10 + 48) :: acc)) := by
  have hb : (frameOf acc).bufferSize = (acc.length : Int) := rfl
  have hd : v % 10 < 10 := Nat.mod_lt _ (by decide)
  unfold PRINTU_body
  simp only [hb]
  rw [frameOf_store acc _ _ h2 (by unfold BUFFER_CAPACITY; omega),
    toChar_digit _ (by omega), wrapU16_small _ (by omega) (by omega)]
  simp only [(frameOf_bump (v % 10 + 48) acc _ rfl).2]

theorem PRINTUINT_body_frameOf (v : Nat) (acc : List Nat) (_h1 : 1 ≤ acc.length)
    (h2 : acc.length < 32) :
    PRINTUINT_body (v, frameOf acc) = some (v / 10, frameOf ((v % 10 + 48) :: acc)) := by
  have hb : (frameOf acc).bufferSize = (acc.length : Int) := rfl
  have hd : v % 10 < 10 := Nat.mod_lt _ (by decide)
  unfold PRINTUINT_body
  simp only [hb]
  rw [wrapS32_small _ (by unfold BUFFER_CAPACITY; omega) (by unfold BUFFER_CAPACITY; omega),
    frameOf_store acc _ _ h2 (by unfold BUFFER_CAPACITY; omega),
    toChar_digit _ (by omega), wrapS32_small _ (by omega) (by omega)]
  simp only [(frameOf_bump (v % 10 + 48) acc _ rfl).2]

theorem PRINTINT_body_frameOf (v : Nat) (acc : List Nat) (_h1 : 1 ≤ acc.length)
    (h2 : acc.length < 32) :
    PRINTINT_body (v, frameOf acc) = some (v / 10, frameOf ((v % 10 + 48) :: acc)) := by
  have hb : (frameOf acc).bufferSize = (acc.length : Int) := rfl
  have hd : v % 10 < 10 := Nat.mod_lt _ (by decide)
  unfold PRINTINT_body
  simp only [hb]
  rw [wrapS32_small _ (by unfold BUFFER_CAPACITY; omega) (by unfold BUFFER_CAPACITY; omega),
    frameOf_store acc _ _ h2 (by unfold BUFFER_CAPACITY; omega),
    toChar_digit _ (by omega), wrapS32_small _ (by omega) (by omega)]
  simp only [(frameOf_bump (v % 10 + 48) acc _ rfl).2]

/-- One run of the body of `__PRINTI__` on a non-negative `x`: the stored byte
is the last digit, one more when the routine is on a negative input and the
cursor is still 1. -/
theorem PRINTI_body_frameOf (isNegative : Bool) (v : Nat) (acc : List Nat)
    (_h1 : 1 ≤ acc.length) (h2 : acc.length < 32) :
    PRINTI_body isNegative ((v : Int), frameOf acc)
      = some (((v / 10 : Nat) : Int),
          frameOf ((v % 10 + 48 + (if isNegative = true ∧ acc.length = 1 then 1 else 0)) :: acc)) := by
  have hb : (frameOf acc).bufferSize = (acc.length : Int) := rfl
  have hd : v % 10 < 10 := Nat.mod_lt _ (by decide)
  have hmod : Int.tmod (v : Int) 10 = ((v % 10 : Nat) : Int) := rfl
  have hdiv : Int.tdiv (v : Int) 10 = ((v / 10 : Nat) : Int) := rfl
  unfold PRINTI_body
  simp only [hb, hmod, hdiv]
  rw [frameOf_store acc _ _ h2 (by unfold BUFFER_CAPACITY; omega),
    wrapU16_small _ (by omega) (by omega)]
  have hbyte : toChar (((v % 10 : Nat) : Int) + 48
        + (if isNegative = true ∧ (acc.length : Int) = 1 then 1 else 0))
      = v % 10 + 48 + (if isNegative = true ∧ acc.length = 1 then 1 else 0) := by
    by_cases hc : isNegative = true ∧ acc.length = 1
    · have hc' : isNegative = true ∧ (acc.length : Int) = 1 := ⟨hc.1, by omega⟩
      rw [if_pos hc, if_pos hc']; unfold toChar; omega
    · have hc' : ¬ (isNegative = true ∧ (acc.length : Int) = 1) := by
        intro h; exact hc ⟨h.1, by omega⟩
      rw [if_neg hc, if_neg hc']; unfold toChar; omega
  rw [hbyte]
  simp only [(frameOf_bump _ acc _ rfl).2]

/-! ### The final `write` -/

theorem allAssigned_map_some (l : List Nat) : allAssigned (l.map some) = some l := by
  induction l with
  | nil => rfl
  | cons b l ih => simp [allAssigned, ih]

theorem frameOf_write (acc : List Nat) (h : acc.length ≤ 32) (start count : Int)
    (hs : start = 32 - (acc.length : Int)) (hc : count = (acc.length : Int)) :
    (frameOf acc).write start count = some acc := by
  subst hs hc
  have hidx : ((32 : Int) - (acc.length : Int)).toNat = 32 - acc.length := by omega
  unfold Frame.write
  rw [if_pos (by simp only [BUFFER_CAPACITY]; omega)]
  simp only [frameOf, hidx, Int.toNat_ofNat]
  rw [List.drop_left' (by simp)]
  rw [List.take_of_length_le (by simp)]
  exact allAssigned_map_some acc

theorem frameOf_write_U16 (acc : List Nat) (h : acc.length ≤ 32) :
    (frameOf acc).write (BUFFER_CAPACITY - (frameOf acc).bufferSize) (frameOf acc).bufferSize
      = some acc :=
  frameOf_write acc h _ _ rfl rfl

theorem frameOf_write_S32 (acc : List Nat) (h : acc.length ≤ 32) :
    (frameOf acc).write (wrapS32 (BUFFER_CAPACITY - (frameOf acc).bufferSize))
      (frameOf acc).bufferSize = some acc := by
  have hb : (frameOf acc).bufferSize = (acc.length : Int) := rfl
  rw [hb, wrapS32_small _ (by unfold BUFFER_CAPACITY; omega) (by unfold BUFFER_CAPACITY; omega)]
  exact frameOf_write acc h _ _ rfl rfl

/-! ### The sign -/

theorem frameOf_sign_U16 (acc : List Nat) (h : acc.length < 32) :
    (match (frameOf acc).store (BUFFER_CAPACITY - 1 - (frameOf acc).bufferSize) 45 with
      | none => none
      | some g => some { g with bufferSize := wrapU16 ((frameOf acc).bufferSize + 1) })
      = some (frameOf (45 :: acc)) := by
  have hb : (frameOf acc).bufferSize = (acc.length : Int) := rfl
  rw [hb, frameOf_store acc _ _ h (by unfold BUFFER_CAPACITY; omega),
    wrapU16_small _ (by omega) (by omega)]
  simp only [(frameOf_bump 45 acc _ rfl).2]

theorem frameOf_sign_S32 (acc : List Nat) (h : acc.length < 32) :
    (match (frameOf acc).store (wrapS32 (BUFFER_CAPACITY - 1 - (frameOf acc).bufferSize)) 45 with
      | none => none
      | some g => some { g with bufferSize := wrapS32 ((frameOf acc).bufferSize + 1) })
      = some (frameOf (45 :: acc)) := by
  have hb : (frameOf acc).bufferSize = (acc.length : Int) := rfl
  rw [hb, wrapS32_small _ (by unfold BUFFER_CAPACITY; omega) (by unfold BUFFER_CAPACITY; omega),
    frameOf_store acc _ _ h (by unfold BUFFER_CAPACITY; omega),
    wrapS32_small _ (by omega) (by omega)]
  simp only [(frameOf_bump 45 acc _ rfl).2]

/-! ### The four digit loops, from entry to exit -/

theorem PRINTU_loop_eq (fuel x : Nat) (hx : inU64 x) (hf : 20 ≤ fuel) :
    doWhile PRINTU_body (fun s => decide (s.1 ≠ 0)) fuel (x, frameOf [10])
        = some (0, frameOf (natText x ++ [10])) ∧
    iterate PRINTU_body (natText x).length (x, frameOf [10])
        = some (0, frameOf (natText x ++ [10])) := by
  have hx' : x < 10 ^ (19 + 1) := by unfold inU64 at hx; omega
  exact ⟨doWhile_digits (fun v => v) PRINTU_body (fun s => decide (s.1 ≠ 0)) 1
      (fun v acc h1 h2 => PRINTU_body_frameOf v acc h1 h2) (fun _ _ => rfl)
      19 fuel x [10] hx' hf (by simp) (by simp),
    iterate_digits (fun v => v) PRINTU_body 1
      (fun v acc h1 h2 => PRINTU_body_frameOf v acc h1 h2) 19 x [10] hx' (by simp) (by simp)⟩

theorem PRINTUINT_loop_eq (fuel x : Nat) (hx : inU64 x) (hf : 20 ≤ fuel) :
    doWhile PRINTUINT_body (fun s => decide (s.1 ≠ 0)) fuel (x, frameOf [10])
        = some (0, frameOf (natText x ++ [10])) ∧
    iterate PRINTUINT_body (natText x).length (x, frameOf [10])
        = some (0, frameOf (natText x ++ [10])) := by
  have hx' : x < 10 ^ (19 + 1) := by unfold inU64 at hx; omega
  exact ⟨doWhile_digits (fun v => v) PRINTUINT_body (fun s => decide (s.1 ≠ 0)) 1
      (fun v acc h1 h2 => PRINTUINT_body_frameOf v acc h1 h2) (fun _ _ => rfl)
      19 fuel x [10] hx' hf (by simp) (by simp),
    iterate_digits (fun v => v) PRINTUINT_body 1
      (fun v acc h1 h2 => PRINTUINT_body_frameOf v acc h1 h2) 19 x [10] hx' (by simp)
      (by simp)⟩

theorem PRINTINT_uValue_eq (x : Int) (hx : inS64 x) : PRINTINT_uValue x = x.natAbs := by
  unfold inS64 at hx
  unfold PRINTINT_uValue wrapU64 wrapS64
  split <;> omega

theorem PRINTINT_loop_eq (fuel : Nat) (x : Int) (hx : inS64 x) (hf : 20 ≤ fuel) :
    doWhile PRINTINT_body (fun s => decide (s.1 ≠ 0)) fuel (PRINTINT_uValue x, frameOf [10])
        = some (0, frameOf (natText x.natAbs ++ [10])) ∧
    iterate PRINTINT_body (natText x.natAbs).length (PRINTINT_uValue x, frameOf [10])
        = some (0, frameOf (natText x.natAbs ++ [10])) := by
  have hx' : x.natAbs < 10 ^ (18 + 1) := by unfold inS64 at hx; omega
  rw [PRINTINT_uValue_eq x hx]
  exact ⟨doWhile_digits (fun v => v) PRINTINT_body (fun s => decide (s.1 ≠ 0)) 1
      (fun v acc h1 h2 => PRINTINT_body_frameOf v acc h1 h2) (fun _ _ => rfl)
      18 fuel x.natAbs [10] hx' (by omega) (by simp) (by simp),
    iterate_digits (fun v => v) PRINTINT_body 1
      (fun v acc h1 h2 => PRINTINT_body_frameOf v acc h1 h2) 18 x.natAbs [10] hx' (by simp)
      (by simp)⟩

theorem PRINTI_magnitude_eq (x : Int) (hx : inS64 x) :
    PRINTI_magnitude x = (((if x < 0 then -x - 1 else x).toNat : Nat) : Int) := by
  unfold inS64 at hx
  unfold PRINTI_magnitude wrapS64
  split <;> omega

theorem PRINTI_body_late (isNegative : Bool) (lo : Nat)
    (hlo : isNegative = true → 2 ≤ lo) (hlo1 : 1 ≤ lo)
    (v : Nat) (acc : List Nat) (h1 : lo ≤ acc.length) (h2 : acc.length < 32) :
    PRINTI_body isNegative ((v : Int), frameOf acc)
      = some (((v / 10 : Nat) : Int), frameOf ((v % 10 + 48) :: acc)) := by
  have hno : ¬ (isNegative = true ∧ acc.length = 1) := by
    intro h
    have := hlo h.1
    omega
  rw [PRINTI_body_frameOf isNegative v acc (by omega) h2, if_neg hno]

theorem PRINTI_loop_eq (fuel : Nat) (x : Int) (hx : inS64 x) (hf : 20 ≤ fuel) :
    doWhile (PRINTI_body (decide (x < 0))) (fun s => decide (s.1 ≠ 0)) fuel
        (PRINTI_magnitude x, frameOf [10])
        = some (0, frameOf (PRINTI_digits x ++ [10])) ∧
    iterate (PRINTI_body (decide (x < 0))) (PRINTI_digits x).length
        (PRINTI_magnitude x, frameOf [10])
        = some (0, frameOf (PRINTI_digits x ++ [10])) := by
  have hcond : ∀ (v : Nat) (f : Frame),
      (fun s : Int × Frame => decide (s.1 ≠ 0)) ((v : Int), f) = decide (v ≠ 0) := by
    intro v f; simp
  rw [PRINTI_magnitude_eq x hx]
  by_cases hneg : x < 0
  · have hm : (-x - 1).toNat < 10 ^ (18 + 1) := by unfold inS64 at hx; omega
    obtain ⟨fuel, rfl⟩ : ∃ k, fuel = k + 1 := ⟨fuel - 1, by omega⟩
    simp only [PRINTI_digits, hneg, decide_True, if_true]
    generalize (-x - 1).toNat = m at hm ⊢
    have hfirst := PRINTI_body_frameOf true m [10] (by simp) (by simp)
    simp only [List.length_singleton, and_self, if_true] at hfirst
    by_cases hz : m / 10 = 0
    · simp only [hz, if_true, List.nil_append, List.length_singleton, doWhile, iterate, hfirst]
      simp
    · have hlt : m / 10 < 10 ^ (17 + 1) := by omega
      have hb := fun v acc h1 h2 =>
        PRINTI_body_late true 2 (fun _ => le_refl 2) (by decide) v acc h1 h2
      have hloop := doWhile_digits (fun v => ((v : Nat) : Int)) (PRINTI_body true)
        (fun s => decide (s.1 ≠ 0)) 2 hb hcond 17 fuel (m / 10) [m % 10 + 48 + 1, 10] hlt
        (by omega) (by simp) (by simp)
      have hiter := iterate_digits (fun v => ((v : Nat) : Int)) (PRINTI_body true) 2 hb
        17 (m / 10) [m % 10 + 48 + 1, 10] hlt (by simp) (by simp)
      have hnz : ((((m / 10 : Nat) : Int)) ≠ 0) := by exact_mod_cast hz
      simp only [hz, if_false, List.length_append, List.length_singleton, doWhile, iterate,
        hfirst, hnz, ne_eq, not_false_eq_true, decide_True, if_true, hloop, hiter]
      simp
  · have hm : x.toNat < 10 ^ (18 + 1) := by unfold inS64 at hx; omega
    have hb := fun v acc h1 h2 =>
      PRINTI_body_late false 1 (fun h => by simp at h) (by decide) v acc h1 h2
    simp only [PRINTI_digits, hneg, decide_False, if_false]
    exact ⟨doWhile_digits (fun v => ((v : Nat) : Int)) (PRINTI_body false)
        (fun s => decide (s.1 ≠ 0)) 1 hb hcond 18 fuel x.toNat [10] hm (by omega) (by simp)
        (by simp),
      iterate_digits (fun v => ((v : Nat) : Int)) (PRINTI_body false) 1 hb 18 x.toNat [10] hm
        (by simp) (by simp)⟩

/-! ### Widths -/

theorem natText_length_U64 (x : Nat) (hx : inU64 x) : (natText x).length ≤ 20 := by
  have hx' : x < 10 ^ (19 + 1) := by unfold inU64 at hx; omega
  exact natText_length_le 19 x hx'

theorem natText_length_S64 (x : Int) (hx : inS64 x) : (natText x.natAbs).length ≤ 19 := by
  have hx' : x.natAbs < 10 ^ (18 + 1) := by unfold inS64 at hx; omega
  exact natText_length_le 18 _ hx'

theorem PRINTI_digits_length_pos (x : Int) : 1 ≤ (PRINTI_digits x).length := by
  unfold PRINTI_digits
  split
  · simp
  · exact natText_length_pos _

theorem PRINTI_digits_length_S64 (x : Int) (hx : inS64 x) : (PRINTI_digits x).length ≤ 19 := by
  unfold PRINTI_digits
  by_cases hneg : x < 0
  · have hm : (-x - 1).toNat < 10 ^ (18 + 1) := by unfold inS64 at hx; omega
    rw [if_pos hneg]
    generalize (-x - 1).toNat = m at hm
    by_cases hz : m / 10 = 0
    · simp [hz]
    · have hlt : m / 10 < 10 ^ (17 + 1) := by omega
      have := natText_length_le 17 _ hlt
      simp [hz]; omega
  · have hm : x.toNat < 10 ^ (18 + 1) := by unfold inS64 at hx; omega
    have := natText_length_le 18 _ hm
    rw [if_neg hneg]; omega

/-! ### Closed forms of the four routines -/

theorem PRINTU_eq (fuel x : Nat) (hx : inU64 x) (hf : 20 ≤ fuel) :
    __PRINTU__ fuel x = some ⟨frameOf (natText x ++ [10]), natText x ++ [10]⟩ := by
  have hlen := natText_length_U64 x hx
  unfold __PRINTU__
  simp only [PRINTU_entry_eq, (PRINTU_loop_eq fuel x hx hf).1,
    frameOf_write_U16 _ (by simp; omega : (natText x ++ [10]).length ≤ 32)]

theorem PRINTUINT_eq (fuel x : Nat) (hx : inU64 x) (hf : 20 ≤ fuel) :
    PRINTUINT fuel x = some ⟨frameOf (natText x ++ [10]), natText x ++ [10]⟩ := by
  have hlen := natText_length_U64 x hx
  unfold PRINTUINT
  simp only [PRINTUINT_entry_eq, (PRINTUINT_loop_eq fuel x hx hf).1,
    frameOf_write_S32 _ (by simp; omega : (natText x ++ [10]).length ≤ 32)]

theorem intText_nonneg (x : Int) (h : 0 ≤ x) : intText x = natText x.toNat := by
  cases x with
  | ofNat n => simp [intText, natText, Int.repr]
  | negSucc n => exact absurd h (by simp)

theorem intText_neg (x : Int) (h : x < 0) : intText x = 45 :: natText x.natAbs := by
  cases x with
  | ofNat n => exact absurd h (by simp)
  | negSucc n =>
    simp only [intText, natText, Int.repr, bytesOf, Int.natAbs_negSucc, String.toList,
      String.data_append, List.map_append]
    rfl

theorem intText_eq (x : Int) :
    intText x = (if x < 0 then [45] else []) ++ natText x.natAbs := by
  by_cases hneg : x < 0
  · rw [intText_neg x hneg, if_pos hneg]; rfl
  · have hnat : x.toNat = x.natAbs := by omega
    rw [intText_nonneg x (by omega), if_neg hneg, hnat]; rfl

theorem PRINTINT_eq (fuel : Nat) (x : Int) (hx : inS64 x) (hf : 20 ≤ fuel) :
    PRINTINT fuel x = some ⟨frameOf (intText x ++ [10]), intText x ++ [10]⟩ := by
  have hlen := natText_length_S64 x hx
  unfold PRINTINT
  simp only [PRINTINT_entry_eq, (PRINTINT_loop_eq fuel x hx hf).1]
  by_cases hneg : x < 0
  · simp only [hneg, decide_True, if_true,
      frameOf_sign_S32 _ (by simp; omega : (natText x.natAbs ++ [10]).length < 32),
      frameOf_write_S32 _ (by simp; omega : (45 :: (natText x.natAbs ++ [10])).length ≤ 32)]
    simp [intText_neg x hneg]
  · have hnat : x.natAbs = x.toNat := by omega
    simp only [hneg, decide_False, Bool.false_eq_true, if_false,
      frameOf_write_S32 _ (by simp; omega : (natText x.natAbs ++ [10]).length ≤ 32)]
    simp [intText_nonneg x (by omega), hnat]

theorem PRINTI_eq (fuel : Nat) (x : Int) (hx : inS64 x) (hf : 20 ≤ fuel) :
    __PRINTI__ fuel x = some ⟨frameOf (PRINTI_text x ++ [10]), PRINTI_text x ++ [10]⟩ := by
  have hlen := PRINTI_digits_length_S64 x hx
  unfold __PRINTI__
  simp only [PRINTI_entry_eq, (PRINTI_loop_eq fuel x hx hf).1]
  by_cases hneg : x < 0
  · simp only [PRINTI_text, hneg, decide_True, if_true,
      frameOf_sign_U16 _ (by simp; omega : (PRINTI_digits x ++ [10]).length < 32),
      frameOf_write_U16 _ (by simp; omega : (45 :: (PRINTI_digits x ++ [10])).length ≤ 32)]
    simp
  · simp only [PRINTI_text, hneg, decide_False, Bool.false_eq_true, if_false,
      frameOf_write_U16 _ (by simp; omega : (PRINTI_digits x ++ [10]).length ≤ 32)]

theorem natText_digits : ∀ (x : Nat), x ≠ 0 →
    natText x = (Nat.digits 10 x).reverse.map (fun d => d + 48) := by
  intro x
  induction x using Nat.strong_induction_on with
  | _ x ih =>
    intro hx
    rw [Nat.digits_def' (by decide) (by omega)]
    by_cases h : x < 10
    · rw [natText_lt10 x h]
      have : x / 10 = 0 := by omega
      simp [this, Nat.mod_eq_of_lt h]
    · rw [natText_ge10 x (by omega), ih (x / 10) (by omega) (by omega)]
      simp

theorem natText_head (x : Nat) (hx : x ≠ 0) : (natText x).head? ≠ some 48 := by
  rw [natText_digits x hx, List.head?_map, List.head?_reverse]
  have hne : Nat.digits 10 x ≠ [] := by simpa [Nat.digits_eq_nil_iff_eq_zero] using hx
  rw [List.getLast?_eq_getLast _ hne]
  have := Nat.getLast_digit_ne_zero 10 hx
  simp
  exact this

theorem natText_isDigit (x : Nat) : ∀ b ∈ natText x, 48 ≤ b ∧ b ≤ 57 := by
  induction x using Nat.strong_induction_on with
  | _ x ih =>
    intro b hb
    by_cases h : x < 10
    · rw [natText_lt10 x h] at hb
      simp at hb; omega
    · rw [natText_ge10 x (by omega)] at hb
      rcases List.mem_append.mp hb with hb | hb
      · exact ih (x / 10) (by omega) b hb
      · simp at hb; omega


/-! ### Reading decimal text back -/

theorem parseDigitsAux_snoc (l : List Nat) : ∀ (acc b : Nat), 48 ≤ b → b ≤ 57 →
    parseDigitsAux acc (l ++ [b])
      = (parseDigitsAux acc l).map (fun a => a * 10 + (b - 48)) := by
  induction l with
  | nil => intro acc b h1 h2; simp [parseDigitsAux, h1, h2]
  | cons c l ih =>
    intro acc b h1 h2
    simp only [List.cons_append, parseDigitsAux]
    split
    · exact ih _ b h1 h2
    · rfl

theorem parseDigitsAux_natText : ∀ (v : Nat), parseDigitsAux 0 (natText v) = some v := by
  intro v
  induction v using Nat.strong_induction_on with
  | _ v ih =>
    by_cases h : v < 10
    · rw [natText_lt10 v h]
      simp only [parseDigitsAux]
      rw [if_pos (by omega)]
      simp
    · rw [natText_ge10 v (by omega),
        parseDigitsAux_snoc _ 0 _ (by omega) (by omega), ih (v / 10) (by omega)]
      simp only [Option.map_some', Option.some.injEq]
      omega

theorem natText_ne_nil (v : Nat) : natText v ≠ [] := by
  intro h
  have := natText_length_pos v
  rw [h] at this
  simp at this

theorem natText_head_ne_minus (v : Nat) : (natText v).head? ≠ some 45 := by
  intro h
  have hmem : 45 ∈ natText v := List.mem_of_mem_head? h
  have := natText_isDigit v 45 hmem
  omega

/-- The reader accepts the decimal text of every integer and returns it. -/
theorem parseSigned_intText (x : Int) : parseSigned (intText x) = some x := by
  by_cases hneg : x < 0
  · have hval : -((x.natAbs : Nat) : Int) = x := by omega
    rw [intText_neg x hneg]
    simp only [parseSigned, List.head?_cons, if_true, List.tail_cons, parseDigits,
      if_neg (natText_ne_nil _), parseDigitsAux_natText, Option.map_some', hval]
  · have hval : ((x.toNat : Nat) : Int) = x := by omega
    rw [intText_nonneg x (by omega)]
    simp only [parseSigned, if_neg (natText_head_ne_minus _), parseDigits,
      if_neg (natText_ne_nil _), parseDigitsAux_natText, Option.map_some', hval]

theorem intText_length_S64 (x : Int) (hx : inS64 x) : (intText x).length ≤ 20 := by
  have := natText_length_S64 x hx
  rw [intText_eq]
  split <;> simp <;> omega

theorem PRINTI_text_length_S64 (x : Int) (hx : inS64 x) : (PRINTI_text x).length ≤ 20 := by
  have := PRINTI_digits_length_S64 x hx
  unfold PRINTI_text
  split <;> simp <;> omega

/-! ### Shape of a frame with a filled suffix -/

theorem frameOf_stores_mem (acc : List Nat) (h : acc.length ≤ 32) :
    ∀ i ∈ (frameOf acc).stores, 0 ≤ i ∧ i < BUFFER_CAPACITY := by
  intro i hi
  simp only [frameOf, List.mem_map, List.mem_range] at hi
  obtain ⟨k, hk, rfl⟩ := hi
  unfold BUFFER_CAPACITY
  omega

theorem frameOf_bufferSafe (acc : List Nat) (h : acc.length ≤ 21) :
    BufferSafe ⟨frameOf acc, acc⟩ := by
  refine ⟨frameOf_stores_mem acc (by omega), ?_, ?_, ?_⟩ <;>
    simp only [frameOf, BUFFER_CAPACITY] <;> omega

theorem frameOf_terminatorKept (acc : List Nat) (h : 1 ≤ acc.length) :
    TerminatorKept (frameOf acc) := by
  obtain ⟨n, hn⟩ : ∃ n, acc.length = n + 1 := ⟨acc.length - 1, by omega⟩
  unfold TerminatorKept
  simp only [frameOf, hn, List.range_succ_eq_map, List.map_cons, List.head?_cons,
    List.tail_cons, List.map_map]
  refine ⟨by simp, ?_⟩
  intro i hi
  simp only [List.mem_map, List.mem_range, Function.comp] at hi
  obtain ⟨k, _, rfl⟩ := hi
  omega

theorem frameOf_emits (acc : List Nat) (h : acc.length ≤ 32) :
    EmitsFilledSlice ⟨frameOf acc, acc⟩ := by
  have hidx : ((32 : Int) - (acc.length : Int)).toNat = 32 - acc.length := by omega
  unfold EmitsFilledSlice
  simp only [frameOf, BUFFER_CAPACITY, hidx]
  rw [List.drop_left' (by simp)]
  simp

theorem frameOf_filledSuffix (ds : List Nat) (h : ds.length + 1 ≤ 32) :
    FilledSuffix (frameOf (ds ++ [10])) (ds.length + 1) := by
  have hlen : (ds ++ [10]).length = ds.length + 1 := by simp
  refine ⟨by simp [frameOf], by simp [frameOf]; omega, ?_, ?_⟩
  · have hbuf : (frameOf (ds ++ [10])).buffer
        = (List.replicate (32 - (ds.length + 1)) none ++ ds.map some) ++ [some 10] := by
      simp [frameOf]
    rw [hbuf, List.getElem?_append_right (by simp; omega)]
    have : 31 - (List.replicate (32 - (ds.length + 1)) (none : Option Nat)
        ++ ds.map some).length = 0 := by simp; omega
    rw [this]; rfl
  · intro i hi
    simp only [frameOf, hlen]
    by_cases hlt : i < 32 - (ds.length + 1)
    · rw [List.getElem?_append_left (by simpa using hlt)]
      simp [List.getElem?_replicate, hlt]; omega
    · rw [List.getElem?_append_right (by simp; omega)]
      constructor
      · intro hnone
        rw [List.getElem?_map] at hnone
        cases hget : (ds ++ [10])[i - (List.replicate (32 - (ds.length + 1))
            (none : Option Nat)).length]? with
        | none => rw [hget] at hnone; simp at hnone
        | some b => rw [hget] at hnone; simp at hnone
      · intro hc; omega

/-! ### Loops as iterated bodies -/

theorem doWhile_iterate {σ : Type} (body : σ → Option σ) (cond : σ → Bool) :
    ∀ (fuel : Nat) (s s' : σ), doWhile body cond fuel s = some s' →
      ∃ n, 1 ≤ n ∧ n ≤ fuel ∧ iterate body n s = some s' ∧ cond s' = false ∧
        ∀ k, 1 ≤ k → k < n → ∃ sk, iterate body k s = some sk ∧ cond sk = true := by
  intro fuel
  induction fuel with
  | zero => intro s s' h; simp [doWhile] at h
  | succ fuel ih =>
    intro s s' h
    simp only [doWhile] at h
    cases hb : body s with
    | none => rw [hb] at h; simp at h
    | some s1 =>
      rw [hb] at h
      simp only at h
      by_cases hc : cond s1 = true
      · rw [if_pos hc] at h
        obtain ⟨n, hn1, hn2, hit, hcf, hmid⟩ := ih s1 s' h
        refine ⟨n + 1, by omega, by omega, by simp [iterate, hb, hit], hcf, ?_⟩
        intro k hk1 hk2
        obtain ⟨j, rfl⟩ : ∃ j, k = j + 1 := ⟨k - 1, by omega⟩
        cases j with
        | zero => exact ⟨s1, by simp [iterate, hb], hc⟩
        | succ j =>
          obtain ⟨sk, hsk, hck⟩ := hmid (j + 1) (by omega) (by omega)
          exact ⟨sk, by simp only [iterate, hb]; exact hsk, hck⟩
      · rw [if_neg hc] at h
        cases h
        refine ⟨1, le_refl 1, by omega, by simp [iterate, hb], by simpa using hc, ?_⟩
        intro k hk1 hk2; omega

theorem iterate_frameOf {α : Type} (inj : Nat → α) (body : α × Frame → Option (α × Frame))
    (byte : Nat → List Nat → Nat)
    (hbody : ∀ (v : Nat) (acc : List Nat), 1 ≤ acc.length → acc.length < 32 →
      body (inj v, frameOf acc) = some (inj (v / 10), frameOf (byte v acc :: acc))) :
    ∀ (k v : Nat) (acc : List Nat), 1 ≤ acc.length → acc.length + k ≤ 32 →
      ∃ ds : List Nat, ds.length = k ∧
        iterate body k (inj v, frameOf acc) = some (inj (v / 10 ^ k), frameOf (ds ++ acc)) := by
  intro k
  induction k with
  | zero => intro v acc _ _; exact ⟨[], rfl, by simp [iterate]⟩
  | succ k ih =>
    intro v acc h1 h2
    obtain ⟨ds, hds, hit⟩ := ih (v / 10) (byte v acc :: acc) (by simp) (by simp; omega)
    refine ⟨ds ++ [byte v acc], by simp [hds], ?_⟩
    simp only [iterate, hbody v acc h1 (by omega), hit]
    rw [Nat.div_div_eq_div_mul, pow_succ, Nat.mul_comm]
    simp


theorem callInvariant_of {α : Type} (inj : Nat → α) (body : α × Frame → Option (α × Frame))
    (cond : α × Frame → Bool) (byte : Nat → List Nat → Nat)
    (hbody : ∀ (v : Nat) (acc : List Nat), 1 ≤ acc.length → acc.length < 32 →
      body (inj v, frameOf acc) = some (inj (v / 10), frameOf (byte v acc :: acc)))
    (entry : Option (α × Frame)) (v : Nat) (hentry : entry = some (inj v, frameOf [10]))
    (fuel : Nat) (ds sgn : List Nat) (hlen : sgn.length + ds.length + 1 ≤ 32)
    (hloop : doWhile body cond fuel (inj v, frameOf [10]) = some (inj 0, frameOf (ds ++ [10])))
    (hiter : iterate body ds.length (inj v, frameOf [10]) = some (inj 0, frameOf (ds ++ [10])))
    (result : Option Outcome)
    (hres : result = some ⟨frameOf (sgn ++ ds ++ [10]), sgn ++ ds ++ [10]⟩) :
    CallInvariant entry body cond fuel sgn.length result := by
  refine ⟨_, _, _, ds.length, hres, hentry, hloop, hiter, ?_, ?_, ?_, ?_⟩
  · intro k hk
    obtain ⟨ds', hlen', hit⟩ :=
      iterate_frameOf inj body byte hbody k v [10] (by simp) (by simp; omega)
    refine ⟨_, hit, ?_⟩
    subst hlen'
    exact frameOf_filledSuffix ds' (by omega)
  · have h := frameOf_filledSuffix (sgn ++ ds) (by simp; omega)
    have hl : (sgn ++ ds).length + 1 = ds.length + 1 + sgn.length := by simp; omega
    rw [hl] at h
    exact h
  · exact frameOf_terminatorKept _ (by simp; omega)
  · exact frameOf_emits _ (by simp; omega)


/-! ### Number of runs of a digit loop -/

theorem natText_lt_pow : ∀ (v : Nat), v < 10 ^ (natText v).length := by
  intro v
  induction v using Nat.strong_induction_on with
  | _ v ih =>
    by_cases h : v < 10
    · rw [natText_lt10 v h]; simpa using h
    · have hlen : (natText v).length = (natText (v / 10)).length + 1 := by
        rw [natText_ge10 v (by omega)]; simp
      have := ih (v / 10) (by omega)
      rw [hlen, pow_succ]
      omega

theorem natText_div_pow_ne_zero : ∀ (k v : Nat), k < (natText v).length →
    v / 10 ^ k ≠ 0 ∨ k = 0 := by
  intro k
  induction k with
  | zero => intro v _; exact Or.inr rfl
  | succ k ih =>
    intro v hk
    left
    by_cases h : v < 10
    · rw [natText_lt10 v h] at hk; simp at hk
    · have hlen : (natText v).length = (natText (v / 10)).length + 1 := by
        rw [natText_ge10 v (by omega)]; simp
      have hdiv : v / 10 ^ (k + 1) = v / 10 / 10 ^ k := by
        rw [Nat.div_div_eq_div_mul, pow_succ, Nat.mul_comm]
      rw [hdiv]
      rcases ih (v / 10) (by omega) with h1 | h1
      · exact h1
      · subst h1; simp; omega

theorem natText_div_pow_length (v : Nat) : v / 10 ^ (natText v).length = 0 :=
  Nat.div_eq_of_lt (natText_lt_pow v)

theorem doWhile_of_iterate {σ : Type} (body : σ → Option σ) (cond : σ → Bool) :
    ∀ (n : Nat) (s sn : σ), iterate body (n + 1) s = some sn → cond sn = false →
      (∀ k, 1 ≤ k → k < n + 1 → ∃ sk, iterate body k s = some sk ∧ cond sk = true) →
      (∀ fuel, n + 1 ≤ fuel → doWhile body cond fuel s = some sn) ∧
      (∀ fuel, fuel < n + 1 → doWhile body cond fuel s = none) := by
  intro n
  induction n with
  | zero =>
    intro s sn hit hc _
    simp only [iterate] at hit
    cases hb : body s with
    | none => rw [hb] at hit; simp at hit
    | some s1 =>
      rw [hb] at hit
      simp only [Option.some.injEq] at hit
      subst hit
      constructor
      · intro fuel hf
        obtain ⟨fuel, rfl⟩ : ∃ j, fuel = j + 1 := ⟨fuel - 1, by omega⟩
        simp [doWhile, hb, hc]
      · intro fuel hf
        have : fuel = 0 := by omega
        subst this; rfl
  | succ n ih =>
    intro s sn hit hc hmid
    simp only [iterate] at hit
    cases hb : body s with
    | none => rw [hb] at hit; simp at hit
    | some s1 =>
      rw [hb] at hit
      simp only at hit
      have hc1 : cond s1 = true := by
        obtain ⟨sk, hsk, hck⟩ := hmid 1 (le_refl 1) (by omega)
        simp only [iterate, hb, Option.some.injEq] at hsk
        subst hsk; exact hck
      have hmid' : ∀ k, 1 ≤ k → k < n + 1 →
          ∃ sk, iterate body k s1 = some sk ∧ cond sk = true := by
        intro k hk1 hk2
        obtain ⟨sk, hsk, hck⟩ := hmid (k + 1) (by omega) (by omega)
        simp only [iterate, hb] at hsk
        exact ⟨sk, hsk, hck⟩
      obtain ⟨hge, hlt⟩ := ih s1 sn hit hc hmid'
      constructor
      · intro fuel hf
        obtain ⟨fuel, rfl⟩ : ∃ j, fuel = j + 1 := ⟨fuel - 1, by omega⟩
        simp only [doWhile, hb, hc1, if_true]
        exact hge fuel (by omega)
      · intro fuel hf
        cases fuel with
        | zero => rfl
        | succ fuel =>
          simp only [doWhile, hb, hc1, if_true]
          exact hlt fuel (by omega)

theorem loopTerminates_of {α : Type} (inj : Nat → α) (val : α → Int)
    (hval : ∀ w : Nat, val (inj w) = (w : Int))
    (body : α × Frame → Option (α × Frame)) (cond : α × Frame → Bool)
    (byte : Nat → List Nat → Nat)
    (hbody : ∀ (v : Nat) (acc : List Nat), 1 ≤ acc.length → acc.length < 32 →
      body (inj v, frameOf acc) = some (inj (v / 10), frameOf (byte v acc :: acc)))
    (hcond : ∀ (w : Nat) (f : Frame), cond (inj w, f) = decide (w ≠ 0))
    (entry : Option (α × Frame)) (v : Nat) (hentry : entry = some (inj v, frameOf [10]))
    (bound : Nat) (hb : (natText v).length ≤ bound) (hb31 : (natText v).length ≤ 31) :
    LoopTerminates entry body cond val bound := by
  have hn1 := natText_length_pos v
  obtain ⟨n, hn⟩ : ∃ n, (natText v).length = n + 1 := ⟨(natText v).length - 1, by omega⟩
  have hit : ∀ k, k ≤ n + 1 → ∃ ds : List Nat, ds.length = k ∧
      iterate body k (inj v, frameOf [10]) = some (inj (v / 10 ^ k), frameOf (ds ++ [10])) :=
    fun k hk => iterate_frameOf inj body byte hbody k v [10] (by simp) (by simp; omega)
  have hnz : ∀ k, 1 ≤ k → k < n + 1 → v / 10 ^ k ≠ 0 := by
    intro k hk1 hk2
    rcases natText_div_pow_ne_zero k v (by omega) with h | h
    · exact h
    · omega
  obtain ⟨dsn, hdn, hitn⟩ := hit (n + 1) (le_refl _)
  have hz : v / 10 ^ (n + 1) = 0 := by rw [← hn]; exact natText_div_pow_length v
  rw [hz] at hitn
  have hloop := doWhile_of_iterate body cond n (inj v, frameOf [10])
    (inj 0, frameOf (dsn ++ [10])) hitn (by simp [hcond])
    (by
      intro k hk1 hk2
      obtain ⟨ds, _, hk⟩ := hit k (by omega)
      exact ⟨_, hk, by simp [hcond, hnz k hk1 hk2]⟩)
  refine ⟨(inj v, frameOf [10]), (inj 0, frameOf (dsn ++ [10])), n + 1, hentry, ?_,
    by omega, by omega, hloop.1, hloop.2, hitn, by simp [hval], ?_⟩
  · simp [hval]
  · intro k hk
    obtain ⟨ds, hds, hitk⟩ := hit k (by omega)
    have hstep := hbody (v / 10 ^ k) (ds ++ [10]) (by simp) (by simp; omega)
    have hdiv : v / 10 ^ k / 10 = v / 10 ^ (k + 1) := by
      rw [Nat.div_div_eq_div_mul, pow_succ]
    generalize v / 10 ^ k = w at hitk hstep hdiv
    refine ⟨_, _, hitk, hstep, ?_, ?_, ?_, ?_, ?_⟩
    · simp only [hval]; omega
    · simp only [hval]; omega
    · simp only [hval]; omega
    · simp only [hcond, hval, decide_eq_true_iff]
      constructor <;> intro h <;> omega
    · intro hk2
      have := hnz (k + 1) (by omega) hk2
      simp only [hval]
      omega

/-! ### Cells of a filled buffer, counted from the terminator -/

theorem natText_reverse_getElem? : ∀ (j v : Nat), (j = 0 ∨ v / 10 ^ j ≠ 0) →
    (natText v).reverse[j]? = some (v / 10 ^ j % 10 + 48) := by
  intro j
  induction j with
  | zero =>
    intro v _
    by_cases h : v < 10
    · rw [natText_lt10 v h]; simp [Nat.mod_eq_of_lt h]
    · rw [natText_ge10 v (by omega)]; simp
  | succ j ih =>
    intro v hj
    have hdiv : v / 10 ^ (j + 1) = v / 10 / 10 ^ j := by
      rw [Nat.div_div_eq_div_mul, pow_succ, Nat.mul_comm]
    have hnz : v / 10 / 10 ^ j ≠ 0 := by
      rcases hj with h | h
      · omega
      · rw [hdiv] at h; exact h
    have hv : 10 ≤ v := by
      by_contra hlt
      have : v / 10 = 0 := by omega
      rw [this] at hnz
      simp at hnz
    rw [natText_ge10 v hv, hdiv]
    simp only [List.reverse_append, List.reverse_cons, List.reverse_nil, List.nil_append,
      List.singleton_append, List.getElem?_cons_succ]
    exact ih (v / 10) (Or.inr hnz)

theorem getElem?_append_of_some {β : Type} : ∀ (l₁ l₂ : List β) (i : Nat) (a : β),
    l₁[i]? = some a → (l₁ ++ l₂)[i]? = some a := by
  intro l₁
  induction l₁ with
  | nil => intro l₂ i a h; simp at h
  | cons b l₁ ih =>
    intro l₂ i a h
    cases i with
    | zero => simpa using h
    | succ i =>
      simp only [List.cons_append, List.getElem?_cons_succ] at h ⊢
      exact ih l₂ i a h

theorem frameOf_buffer_reverse (acc : List Nat) (h : acc.length ≤ 32) (i : Nat) (b : Nat)
    (hi : acc.reverse[i]? = some b) :
    (frameOf acc).buffer[31 - i]? = some (some b) := by
  have hlt : i < acc.length := by
    have := (List.getElem?_eq_some.mp hi).1
    simpa using this
  rw [List.getElem?_reverse hlt] at hi
  simp only [frameOf]
  rw [List.getElem?_append_right (by simp; omega)]
  have hidx : 31 - i - (List.replicate (32 - acc.length) (none : Option Nat)).length
      = acc.length - 1 - i := by simp; omega
  rw [hidx, List.getElem?_map, hi]
  rfl

theorem PRINTI_digits_length_neg (x : Int) (hneg : x < 0) :
    (PRINTI_digits x).length = (natText (-x - 1).toNat).length := by
  simp only [PRINTI_digits, hneg, if_true]
  generalize (-x - 1).toNat = m
  by_cases hz : m / 10 = 0
  · rw [if_pos hz, natText_lt10 m (by omega)]; simp
  · rw [if_neg hz, natText_ge10 m (by omega)]; simp

theorem PRINTI_text_reverse_neg (x : Int) (hneg : x < 0) :
    (PRINTI_text x ++ [10]).reverse[1]? = some ((-x - 1).toNat % 10 + 48 + 1) ∧
    ∀ j, 1 ≤ j → (-x - 1).toNat / 10 ^ j ≠ 0 →
      (PRINTI_text x ++ [10]).reverse[j + 1]? = some ((-x - 1).toNat / 10 ^ j % 10 + 48) := by
  simp only [PRINTI_text, PRINTI_digits, hneg, if_true]
  generalize (-x - 1).toNat = m
  constructor
  · simp
  · intro j hj hnz
    obtain ⟨i, rfl⟩ : ∃ i, j = i + 1 := ⟨j - 1, by omega⟩
    have hdiv : m / 10 ^ (i + 1) = m / 10 / 10 ^ i := by
      rw [Nat.div_div_eq_div_mul, pow_succ, Nat.mul_comm]
    rw [hdiv] at hnz ⊢
    have hz : m / 10 ≠ 0 := by
      intro h0
      rw [h0] at hnz
      simp at hnz
    have hget := natText_reverse_getElem? i (m / 10) (Or.inr hnz)
    rw [if_neg hz]
    simp only [List.cons_append, List.append_assoc, List.reverse_cons, List.reverse_append,
      List.reverse_nil, List.nil_append, List.singleton_append, List.getElem?_cons_succ]
    exact getElem?_append_of_some _ _ _ _ hget

theorem natText_newline_reverse (v j : Nat) (hj : j = 0 ∨ v / 10 ^ j ≠ 0) :
    (natText v ++ [10]).reverse[j + 1]? = some (v / 10 ^ j % 10 + 48) := by
  simp only [List.reverse_append, List.reverse_cons, List.reverse_nil, List.nil_append,
    List.singleton_append, List.getElem?_cons_succ]
  exact natText_reverse_getElem? j v hj

/-! ### Where `__PRINTI__` prints the decimal text -/

theorem PRINTI_text_nonneg (x : Int) (h : 0 ≤ x) : PRINTI_text x = natText x.toNat := by
  have hneg : ¬ x < 0 := by omega
  simp [PRINTI_text, PRINTI_digits, hneg]

theorem PRINTI_text_neg (x : Int) (h : x < 0) :
    PRINTI_text x = 45 :: ((if (-x - 1).toNat / 10 = 0 then []
      else natText ((-x - 1).toNat / 10)) ++ [(-x - 1).toNat % 10 + 49]) := by
  simp [PRINTI_text, PRINTI_digits, h]

theorem PRINTI_text_eq_intText_iff (x : Int) :
    PRINTI_text x = intText x ↔ (0 ≤ x ∨ x % 10 ≠ 0) := by
  by_cases hneg : x < 0
  · have habs : x.natAbs = (-x - 1).toNat + 1 := by omega
    have hmod : x % 10 = 0 ↔ (-x - 1).toNat % 10 = 9 := by omega
    rw [PRINTI_text_neg x hneg, intText_neg x hneg, habs]
    generalize (-x - 1).toNat = m at hmod
    constructor
    · intro heq
      right
      intro h0
      have h9 := hmod.mp h0
      have hmem : m % 10 + 49 ∈ natText (m + 1) := by
        have := List.cons.inj heq
        rw [← this.2]
        simp
      have := natText_isDigit (m + 1) _ hmem
      omega
    · intro h
      have h9 : m % 10 ≠ 9 := by
        intro h9
        rcases h with h | h
        · omega
        · exact h (hmod.mpr h9)
      by_cases hz : m / 10 = 0
      · rw [if_pos hz, natText_lt10 (m + 1) (by omega)]
        have : m % 10 = m := by omega
        rw [this]
        rfl
      · have h1 : (m + 1) / 10 = m / 10 := by omega
        have h2 : (m + 1) % 10 + 48 = m % 10 + 49 := by omega
        rw [if_neg hz, natText_ge10 (m + 1) (by omega), h1, h2]
  · rw [PRINTI_text_nonneg x (by omega), intText_nonneg x (by omega)]
    constructor
    · intro _; left; omega
    · intro _; rfl

/-! ## The claims -/

/-- C1 (fails on the code): `__PRINTI__` does not emit the decimal text of
every signed 64-bit `x`.  On `x = -10` (any fuel that lets the loop run once)
it returns after writing the three bytes `-`, `:`, line feed, whereas the
decimal text of `-10` followed by a line feed is `-`, `1`, `0`, line feed: the
`+ 1` on the last digit `9` of `-x - 1 = 9` is not carried. -/
theorem C1_PRINTI_minus_ten_prints_colon (fuel : Nat) :
    ∃ r, __PRINTI__ (fuel + 1) (-10) = some r ∧ r.out = [45, 58, 10] ∧
      intText (-10) ++ [10] = [45, 49, 48, 10] ∧ r.out ≠ intText (-10) ++ [10] :=
  ⟨_, rfl, rfl, by decide, by decide⟩

/-- C2: for every unsigned 64-bit `x` and any fuel of at least 20, `__PRINTU__`
and `PRINTUINT` both return, and the bytes each writes are the decimal text of
`x` followed by a line feed; that text is the single byte `0` when `x = 0`
and otherwise the base-10 digits of `x`, most significant first, each as
`'0' + digit`, so it has no sign, consists of digits only, and does not start
with `0`. -/
theorem C2_unsigned_printers_emit_decimal (fuel x : Nat) (hx : inU64 x) (hf : 20 ≤ fuel) :
    (∃ r, __PRINTU__ fuel x = some r ∧ r.out = natText x ++ [10]) ∧
    (∃ r, PRINTUINT fuel x = some r ∧ r.out = natText x ++ [10]) ∧
    natText x = (if x = 0 then [48]
      else (Nat.digits 10 x).reverse.map (fun d => d + 48)) ∧
    (x ≠ 0 → (natText x).head? ≠ some 48) ∧
    (∀ b ∈ natText x, 48 ≤ b ∧ b ≤ 57) := by
  refine ⟨⟨_, PRINTU_eq fuel x hx hf, rfl⟩, ⟨_, PRINTUINT_eq fuel x hx hf, rfl⟩, ?_,
    natText_head x, natText_isDigit x⟩
  by_cases h0 : x = 0
  · subst h0; rw [if_pos rfl]; exact natText_lt10 0 (by decide)
  · rw [if_neg h0]; exact natText_digits x h0

/-- Witness for C2 at `x = 18446744073709551615` with fuel 20. -/
theorem C2_unsigned_printers_emit_decimal_witness :
    inU64 18446744073709551615 ∧ 20 ≤ 20 ∧
    ((∃ r, __PRINTU__ 20 18446744073709551615 = some r ∧
        r.out = natText 18446744073709551615 ++ [10]) ∧
    (∃ r, PRINTUINT 20 18446744073709551615 = some r ∧
        r.out = natText 18446744073709551615 ++ [10]) ∧
    natText 18446744073709551615 = (if 18446744073709551615 = 0 then [48]
      else (Nat.digits 10 18446744073709551615).reverse.map (fun d => d + 48)) ∧
    (18446744073709551615 ≠ 0 → (natText 18446744073709551615).head? ≠ some 48) ∧
    (∀ b ∈ natText 18446744073709551615, 48 ≤ b ∧ b ≤ 57)) :=
  ⟨by decide, by decide,
    C2_unsigned_printers_emit_decimal 20 18446744073709551615 (by decide) (by decide)⟩

/-- C3: for every signed 64-bit `x` and any fuel of at least 20, `PRINTINT`
(product `value * -1` reduced to 64 bits, then cast to unsigned) returns, and
the bytes it writes are the decimal text of `x` followed by a line feed; that
text is a `-` exactly when `x < 0`, followed by the decimal text of `|x|`,
which is `0` for `x = 0` and otherwise the base-10 digits of `|x|`, most
significant first, digits only and not starting with `0`. -/
theorem C3_PRINTINT_emits_decimal (fuel : Nat) (x : Int) (hx : inS64 x) (hf : 20 ≤ fuel) :
    (∃ r, PRINTINT fuel x = some r ∧ r.out = intText x ++ [10]) ∧
    intText x = (if x < 0 then [45] else []) ++ natText x.natAbs ∧
    natText x.natAbs = (if x = 0 then [48]
      else (Nat.digits 10 x.natAbs).reverse.map (fun d => d + 48)) ∧
    (x ≠ 0 → (natText x.natAbs).head? ≠ some 48) ∧
    (∀ b ∈ natText x.natAbs, 48 ≤ b ∧ b ≤ 57) := by
  refine ⟨⟨_, PRINTINT_eq fuel x hx hf, rfl⟩, intText_eq x, ?_, ?_, natText_isDigit _⟩
  · by_cases h0 : x = 0
    · subst h0; rw [if_pos rfl]; exact natText_lt10 0 (by decide)
    · rw [if_neg h0]; exact natText_digits _ (by omega)
  · intro h0; exact natText_head _ (by omega)

/-- Witness for C3 at the minimum value `x = -9223372036854775808` with fuel 20. -/
theorem C3_PRINTINT_emits_decimal_witness :
    inS64 (-9223372036854775808) ∧ 20 ≤ 20 ∧
    ((∃ r, PRINTINT 20 (-9223372036854775808) = some r ∧
        r.out = intText (-9223372036854775808) ++ [10]) ∧
    intText (-9223372036854775808)
      = (if (-9223372036854775808 : Int) < 0 then [45] else [])
        ++ natText (-9223372036854775808 : Int).natAbs ∧
    natText (-9223372036854775808 : Int).natAbs
      = (if (-9223372036854775808 : Int) = 0 then [48]
        else (Nat.digits 10 (-9223372036854775808 : Int).natAbs).reverse.map
          (fun d => d + 48)) ∧
    ((-9223372036854775808 : Int) ≠ 0 →
      (natText (-9223372036854775808 : Int).natAbs).head? ≠ some 48) ∧
    (∀ b ∈ natText (-9223372036854775808 : Int).natAbs, 48 ≤ b ∧ b ≤ 57)) :=
  ⟨by decide, by decide,
    C3_PRINTINT_emits_decimal 20 (-9223372036854775808) (by decide) (by decide)⟩

/-- C4 (fails on the code): the round trip through `__PRINTI__` is not the
identity.  On `x = -10` the routine writes `-`, `:`, line feed; without the
line feed that is not a base-10 signed integer (`:` is not a digit), so
reading it back fails, although the reader returns `-10` on the decimal text
of `-10`. -/
theorem C4_PRINTI_minus_ten_not_read_back (fuel : Nat) :
    ∃ r, __PRINTI__ (fuel + 1) (-10) = some r ∧ r.out.dropLast = [45, 58] ∧
      parseSigned r.out.dropLast = none ∧ parseSigned (intText (-10)) = some (-10) :=
  ⟨_, rfl, rfl, by decide, by decide⟩

/-- C5 (fails on the code): `__PRINTI__` emits a byte that is neither a digit,
nor the leading `-`, nor the final line feed.  On `x = -10` its output is
`-`, `:`, line feed, with the byte 58 (`:`) in second place; `PRINTINT` on the
same input writes `-`, `1`, `0`, line feed. -/
theorem C5_PRINTI_minus_ten_emits_non_digit (fuel : Nat) :
    (∃ r, __PRINTI__ (fuel + 1) (-10) = some r ∧ r.out = [45, 58, 10] ∧
      ¬ OnlyDigitsSignNewline r.out) ∧
    (∃ r, PRINTINT (fuel + 2) (-10) = some r ∧ r.out = [45, 49, 48, 10] ∧
      OnlyDigitsSignNewline r.out) :=
  ⟨⟨_, rfl, rfl, by decide⟩, ⟨_, rfl, rfl, by decide⟩⟩

/-- C6 (fails on the code): the number of bytes `__PRINTI__` writes is not
always the number of decimal digits of `|x|`, plus one for the sign, plus one
for the terminator.  On `x = -10` the final `bufferSize` is 3 and three bytes
are written, whereas `|x| = 10` has two digits and the count should be 4. -/
theorem C6_PRINTI_minus_ten_writes_three_bytes (fuel : Nat) :
    ∃ r, __PRINTI__ (fuel + 1) (-10) = some r ∧ r.frame.bufferSize = 3 ∧
      r.out.length = 3 ∧ (natText (Int.natAbs (-10))).length + 1 + 1 = 4 :=
  ⟨_, rfl, rfl, rfl, by decide⟩

/-- C7: buffer safety.  For every input of its type and any fuel of at least
20, each of `__PRINTU__`, `__PRINTI__`, `PRINTUINT` and `PRINTINT` returns;
every index it stored to lies in `[0, 32)`, the final `bufferSize` is at most
21 (hence at most 32), the start index `BUFFER_CAPACITY - bufferSize` of the
written slice is non-negative, and the number of bytes written is
`bufferSize`. -/
theorem C7_buffer_safety (fuel : Nat) (u : Nat) (x : Int) (hu : inU64 u) (hx : inS64 x)
    (hf : 20 ≤ fuel) :
    (∃ r, __PRINTU__ fuel u = some r ∧ BufferSafe r ∧ (r.out.length : Int) = r.frame.bufferSize) ∧
    (∃ r, __PRINTI__ fuel x = some r ∧ BufferSafe r ∧ (r.out.length : Int) = r.frame.bufferSize) ∧
    (∃ r, PRINTUINT fuel u = some r ∧ BufferSafe r ∧ (r.out.length : Int) = r.frame.bufferSize) ∧
    (∃ r, PRINTINT fuel x = some r ∧ BufferSafe r ∧ (r.out.length : Int) = r.frame.bufferSize) := by
  have h1 := natText_length_U64 u hu
  have h2 := PRINTI_text_length_S64 x hx
  have h3 := intText_length_S64 x hx
  exact ⟨⟨_, PRINTU_eq fuel u hu hf, frameOf_bufferSafe _ (by simp; omega), rfl⟩,
    ⟨_, PRINTI_eq fuel x hx hf, frameOf_bufferSafe _ (by simp; omega), rfl⟩,
    ⟨_, PRINTUINT_eq fuel u hu hf, frameOf_bufferSafe _ (by simp; omega), rfl⟩,
    ⟨_, PRINTINT_eq fuel x hx hf, frameOf_bufferSafe _ (by simp; omega), rfl⟩⟩

/-- Witness for C7 at the widest inputs, `u = 18446744073709551615` and
`x = -9223372036854775808`, with fuel 20. -/
theorem C7_buffer_safety_witness :
    inU64 18446744073709551615 ∧ inS64 (-9223372036854775808) ∧ 20 ≤ 20 ∧
    ((∃ r, __PRINTU__ 20 18446744073709551615 = some r ∧ BufferSafe r ∧
        (r.out.length : Int) = r.frame.bufferSize) ∧
    (∃ r, __PRINTI__ 20 (-9223372036854775808) = some r ∧ BufferSafe r ∧
        (r.out.length : Int) = r.frame.bufferSize) ∧
    (∃ r, PRINTUINT 20 18446744073709551615 = some r ∧ BufferSafe r ∧
        (r.out.length : Int) = r.frame.bufferSize) ∧
    (∃ r, PRINTINT 20 (-9223372036854775808) = some r ∧ BufferSafe r ∧
        (r.out.length : Int) = r.frame.bufferSize)) :=
  ⟨by decide, by decide, by decide,
    C7_buffer_safety 20 18446744073709551615 (-9223372036854775808) (by decide) (by decide)
      (by decide)⟩

/-- C8 (fails on the code): the magnitude computation of `__PRINTI__`
overflows on the minimum value.  For `x = -9223372036854775808` the product
`x * -1` is `9223372036854775808`, which is not a signed 64-bit integer, so
the computation with checked arithmetic stops there; only the reduction to 64
bits makes the result `9223372036854775807`. -/
theorem C8_PRINTI_magnitude_overflows_at_min :
    (-9223372036854775808 : Int) * -1 = 9223372036854775808 ∧
    ¬ inS64 ((-9223372036854775808 : Int) * -1) ∧
    PRINTI_magnitude_checked (-9223372036854775808) = none ∧
    PRINTI_magnitude (-9223372036854775808) = 9223372036854775807 ∧
    PRINTI_magnitude_checked (-9223372036854775807) = some 9223372036854775806 := by
  decide

/-- C9: boundary scenarios.  With any fuel of at least 20, every call of the
two harnesses writes its literal in decimal followed by a line feed:
`__PRINTU__` and `PRINTUINT` on 0, 255, 65535, 4294967295 and
18446744073709551615; `__PRINTI__` and `PRINTINT` on 0, -128, 127, -32768,
32767, -2147483648, 2147483647, 9223372036854775807 and -9223372036854775808
(products reduced to 64 bits). -/
theorem C9_boundary_scenarios (fuel : Nat) (hf : 20 ≤ fuel) :
    ((__PRINTU__ fuel 0).map Outcome.out = some (bytesOf "0\n") ∧
     (__PRINTU__ fuel 255).map Outcome.out = some (bytesOf "255\n") ∧
     (__PRINTU__ fuel 65535).map Outcome.out = some (bytesOf "65535\n") ∧
     (__PRINTU__ fuel 4294967295).map Outcome.out = some (bytesOf "4294967295\n") ∧
     (__PRINTU__ fuel 18446744073709551615).map Outcome.out
       = some (bytesOf "18446744073709551615\n")) ∧
    ((PRINTUINT fuel 0).map Outcome.out = some (bytesOf "0\n") ∧
     (PRINTUINT fuel 255).map Outcome.out = some (bytesOf "255\n") ∧
     (PRINTUINT fuel 65535).map Outcome.out = some (bytesOf "65535\n") ∧
     (PRINTUINT fuel 4294967295).map Outcome.out = some (bytesOf "4294967295\n") ∧
     (PRINTUINT fuel 18446744073709551615).map Outcome.out
       = some (bytesOf "18446744073709551615\n")) ∧
    ((__PRINTI__ fuel 0).map Outcome.out = some (bytesOf "0\n") ∧
     (__PRINTI__ fuel (-128)).map Outcome.out = some (bytesOf "-128\n") ∧
     (__PRINTI__ fuel 127).map Outcome.out = some (bytesOf "127\n") ∧
     (__PRINTI__ fuel (-32768)).map Outcome.out = some (bytesOf "-32768\n") ∧
     (__PRINTI__ fuel 32767).map Outcome.out = some (bytesOf "32767\n") ∧
     (__PRINTI__ fuel (-2147483648)).map Outcome.out = some (bytesOf "-2147483648\n") ∧
     (__PRINTI__ fuel 2147483647).map Outcome.out = some (bytesOf "2147483647\n") ∧
     (__PRINTI__ fuel 9223372036854775807).map Outcome.out
       = some (bytesOf "9223372036854775807\n") ∧
     (__PRINTI__ fuel (-9223372036854775808)).map Outcome.out
       = some (bytesOf "-9223372036854775808\n")) ∧
    ((PRINTINT fuel 0).map Outcome.out = some (bytesOf "0\n") ∧
     (PRINTINT fuel (-128)).map Outcome.out = some (bytesOf "-128\n") ∧
     (PRINTINT fuel 127).map Outcome.out = some (bytesOf "127\n") ∧
     (PRINTINT fuel (-32768)).map Outcome.out = some (bytesOf "-32768\n") ∧
     (PRINTINT fuel 32767).map Outcome.out = some (bytesOf "32767\n") ∧
     (PRINTINT fuel (-2147483648)).map Outcome.out = some (bytesOf "-2147483648\n") ∧
     (PRINTINT fuel 2147483647).map Outcome.out = some (bytesOf "2147483647\n") ∧
     (PRINTINT fuel 9223372036854775807).map Outcome.out
       = some (bytesOf "9223372036854775807\n") ∧
     (PRINTINT fuel (-9223372036854775808)).map Outcome.out
       = some (bytesOf "-9223372036854775808\n")) := by
  have hU : ∀ (x : Nat) (t : List Nat), inU64 x → natText x ++ [10] = t →
      (__PRINTU__ fuel x).map Outcome.out = some t ∧
      (PRINTUINT fuel x).map Outcome.out = some t := by
    intro x t hx ht
    rw [PRINTU_eq fuel x hx hf, PRINTUINT_eq fuel x hx hf, ← ht]
    exact ⟨rfl, rfl⟩
  have hI : ∀ (x : Int) (t : List Nat), inS64 x → PRINTI_text x ++ [10] = t →
      (__PRINTI__ fuel x).map Outcome.out = some t := by
    intro x t hx ht
    rw [PRINTI_eq fuel x hx hf, ← ht]
    rfl
  have hS : ∀ (x : Int) (t : List Nat), inS64 x → intText x ++ [10] = t →
      (PRINTINT fuel x).map Outcome.out = some t := by
    intro x t hx ht
    rw [PRINTINT_eq fuel x hx hf, ← ht]
    rfl
  refine ⟨⟨(hU 0 _ (by decide) (by decide)).1, (hU 255 _ (by decide) (by decide)).1,
      (hU 65535 _ (by decide) (by decide)).1, (hU 4294967295 _ (by decide) (by decide)).1,
      (hU 18446744073709551615 _ (by decide) (by decide)).1⟩,
    ⟨(hU 0 _ (by decide) (by decide)).2, (hU 255 _ (by decide) (by decide)).2,
      (hU 65535 _ (by decide) (by decide)).2, (hU 4294967295 _ (by decide) (by decide)).2,
      (hU 18446744073709551615 _ (by decide) (by decide)).2⟩,
    ⟨hI 0 _ (by decide) (by decide), hI (-128) _ (by decide) (by decide),
      hI 127 _ (by decide) (by decide), hI (-32768) _ (by decide) (by decide),
      hI 32767 _ (by decide) (by decide), hI (-2147483648) _ (by decide) (by decide),
      hI 2147483647 _ (by decide) (by decide),
      hI 9223372036854775807 _ (by decide) (by decide),
      hI (-9223372036854775808) _ (by decide) (by decide)⟩,
    ⟨hS 0 _ (by decide) (by decide), hS (-128) _ (by decide) (by decide),
      hS 127 _ (by decide) (by decide), hS (-32768) _ (by decide) (by decide),
      hS 32767 _ (by decide) (by decide), hS (-2147483648) _ (by decide) (by decide),
      hS 2147483647 _ (by decide) (by decide),
      hS 9223372036854775807 _ (by decide) (by decide),
      hS (-9223372036854775808) _ (by decide) (by decide)⟩⟩

/-- Witness for C9 with fuel 20. -/
theorem C9_boundary_scenarios_witness :
    20 ≤ 20 ∧
    (((__PRINTU__ 20 0).map Outcome.out = some (bytesOf "0\n") ∧
     (__PRINTU__ 20 255).map Outcome.out = some (bytesOf "255\n") ∧
     (__PRINTU__ 20 65535).map Outcome.out = some (bytesOf "65535\n") ∧
     (__PRINTU__ 20 4294967295).map Outcome.out = some (bytesOf "4294967295\n") ∧
     (__PRINTU__ 20 18446744073709551615).map Outcome.out
       = some (bytesOf "18446744073709551615\n")) ∧
    ((PRINTUINT 20 0).map Outcome.out = some (bytesOf "0\n") ∧
     (PRINTUINT 20 255).map Outcome.out = some (bytesOf "255\n") ∧
     (PRINTUINT 20 65535).map Outcome.out = some (bytesOf "65535\n") ∧
     (PRINTUINT 20 4294967295).map Outcome.out = some (bytesOf "4294967295\n") ∧
     (PRINTUINT 20 18446744073709551615).map Outcome.out
       = some (bytesOf "18446744073709551615\n")) ∧
    ((__PRINTI__ 20 0).map Outcome.out = some (bytesOf "0\n") ∧
     (__PRINTI__ 20 (-128)).map Outcome.out = some (bytesOf "-128\n") ∧
     (__PRINTI__ 20 127).map Outcome.out = some (bytesOf "127\n") ∧
     (__PRINTI__ 20 (-32768)).map Outcome.out = some (bytesOf "-32768\n") ∧
     (__PRINTI__ 20 32767).map Outcome.out = some (bytesOf "32767\n") ∧
     (__PRINTI__ 20 (-2147483648)).map Outcome.out = some (bytesOf "-2147483648\n") ∧
     (__PRINTI__ 20 2147483647).map Outcome.out = some (bytesOf "2147483647\n") ∧
     (__PRINTI__ 20 9223372036854775807).map Outcome.out
       = some (bytesOf "9223372036854775807\n") ∧
     (__PRINTI__ 20 (-9223372036854775808)).map Outcome.out
       = some (bytesOf "-9223372036854775808\n")) ∧
    ((PRINTINT 20 0).map Outcome.out = some (bytesOf "0\n") ∧
     (PRINTINT 20 (-128)).map Outcome.out = some (bytesOf "-128\n") ∧
     (PRINTINT 20 127).map Outcome.out = some (bytesOf "127\n") ∧
     (PRINTINT 20 (-32768)).map Outcome.out = some (bytesOf "-32768\n") ∧
     (PRINTINT 20 32767).map Outcome.out = some (bytesOf "32767\n") ∧
     (PRINTINT 20 (-2147483648)).map Outcome.out = some (bytesOf "-2147483648\n") ∧
     (PRINTINT 20 2147483647).map Outcome.out = some (bytesOf "2147483647\n") ∧
     (PRINTINT 20 9223372036854775807).map Outcome.out
       = some (bytesOf "9223372036854775807\n") ∧
     (PRINTINT 20 (-9223372036854775808)).map Outcome.out
       = some (bytesOf "-9223372036854775808\n"))) :=
  ⟨by decide, C9_boundary_scenarios 20 (by decide)⟩

/-- C10: the data-model invariant holds on every call of the four routines
(inputs of the routine's type, fuel of at least 20).  Each call returns; the
digit loop ends in the state reached after some number `n` of runs of its
body; after `k ≤ n` runs `bufferSize = k + 1` and exactly the cells `31 - k`
.. `31` are assigned, cell 31 holding the line feed; in the final frame the
assigned cells are exactly the last `bufferSize` ones (the sign adds one), the
line feed still sits in cell 31, which was stored to once, by the first store;
and the bytes written are the cells `32 - bufferSize` .. `31`, all assigned. -/
theorem C10_call_invariant (fuel : Nat) (u : Nat) (x : Int) (hu : inU64 u) (hx : inS64 x)
    (hf : 20 ≤ fuel) :
    CallInvariant (PRINTU_entry u) PRINTU_body (fun s => decide (s.1 ≠ 0)) fuel 0
      (__PRINTU__ fuel u) ∧
    CallInvariant (PRINTI_entry x) (PRINTI_body (decide (x < 0))) (fun s => decide (s.1 ≠ 0))
      fuel (if x < 0 then 1 else 0) (__PRINTI__ fuel x) ∧
    CallInvariant (PRINTUINT_entry u) PRINTUINT_body (fun s => decide (s.1 ≠ 0)) fuel 0
      (PRINTUINT fuel u) ∧
    CallInvariant (PRINTINT_entry x) PRINTINT_body (fun s => decide (s.1 ≠ 0)) fuel
      (if x < 0 then 1 else 0) (PRINTINT fuel x) := by
  have h1 := natText_length_U64 u hu
  have h2 := PRINTI_digits_length_S64 x hx
  have h3 := natText_length_S64 x hx
  refine ⟨?_, ?_, ?_, ?_⟩
  · exact callInvariant_of (fun v => v) PRINTU_body _ (fun v _ => v % 10 + 48)
      PRINTU_body_frameOf _ u (PRINTU_entry_eq u) fuel (natText u) [] (by simp; omega)
      (PRINTU_loop_eq fuel u hu hf).1 (PRINTU_loop_eq fuel u hu hf).2 _
      (PRINTU_eq fuel u hu hf)
  · have hentry := PRINTI_entry_eq x
    have hloop := PRINTI_loop_eq fuel x hx hf
    rw [PRINTI_magnitude_eq x hx] at hentry hloop
    have hres := PRINTI_eq fuel x hx hf
    by_cases hneg : x < 0
    · have ht : PRINTI_text x ++ [10] = [45] ++ PRINTI_digits x ++ [10] := by
        simp [PRINTI_text, hneg]
      rw [ht] at hres
      rw [if_pos hneg]
      exact callInvariant_of (fun v => ((v : Nat) : Int)) (PRINTI_body (decide (x < 0))) _
        (fun v acc => v % 10 + 48 + (if decide (x < 0) = true ∧ acc.length = 1 then 1 else 0))
        (PRINTI_body_frameOf (decide (x < 0))) _ _ hentry fuel (PRINTI_digits x) [45]
        (by simp; omega) hloop.1 hloop.2 _ hres
    · have ht : PRINTI_text x ++ [10] = [] ++ PRINTI_digits x ++ [10] := by
        simp [PRINTI_text, hneg]
      rw [ht] at hres
      rw [if_neg hneg]
      exact callInvariant_of (fun v => ((v : Nat) : Int)) (PRINTI_body (decide (x < 0))) _
        (fun v acc => v % 10 + 48 + (if decide (x < 0) = true ∧ acc.length = 1 then 1 else 0))
        (PRINTI_body_frameOf (decide (x < 0))) _ _ hentry fuel (PRINTI_digits x) []
        (by simp; omega) hloop.1 hloop.2 _ hres
  · exact callInvariant_of (fun v => v) PRINTUINT_body _ (fun v _ => v % 10 + 48)
      PRINTUINT_body_frameOf _ u (PRINTUINT_entry_eq u) fuel (natText u) [] (by simp; omega)
      (PRINTUINT_loop_eq fuel u hu hf).1 (PRINTUINT_loop_eq fuel u hu hf).2 _
      (PRINTUINT_eq fuel u hu hf)
  · have hres := PRINTINT_eq fuel x hx hf
    rw [intText_eq x] at hres
    by_cases hneg : x < 0
    · rw [if_pos hneg] at hres
      rw [if_pos hneg]
      exact callInvariant_of (fun v => v) PRINTINT_body _ (fun v _ => v % 10 + 48)
        PRINTINT_body_frameOf _ _ (PRINTINT_entry_eq x) fuel (natText x.natAbs) [45]
        (by simp; omega) (PRINTINT_loop_eq fuel x hx hf).1 (PRINTINT_loop_eq fuel x hx hf).2 _
        hres
    · rw [if_neg hneg] at hres
      rw [if_neg hneg]
      exact callInvariant_of (fun v => v) PRINTINT_body _ (fun v _ => v % 10 + 48)
        PRINTINT_body_frameOf _ _ (PRINTINT_entry_eq x) fuel (natText x.natAbs) []
        (by simp; omega) (PRINTINT_loop_eq fuel x hx hf).1 (PRINTINT_loop_eq fuel x hx hf).2 _
        hres

/-- Witness for C10 at `u = 18446744073709551615` and
`x = -9223372036854775808`, with fuel 20. -/
theorem C10_call_invariant_witness :
    inU64 18446744073709551615 ∧ inS64 (-9223372036854775808) ∧ 20 ≤ 20 ∧
    (CallInvariant (PRINTU_entry 18446744073709551615) PRINTU_body
      (fun s => decide (s.1 ≠ 0)) 20 0 (__PRINTU__ 20 18446744073709551615) ∧
    CallInvariant (PRINTI_entry (-9223372036854775808))
      (PRINTI_body (decide ((-9223372036854775808 : Int) < 0))) (fun s => decide (s.1 ≠ 0))
      20 (if (-9223372036854775808 : Int) < 0 then 1 else 0)
      (__PRINTI__ 20 (-9223372036854775808)) ∧
    CallInvariant (PRINTUINT_entry 18446744073709551615) PRINTUINT_body
      (fun s => decide (s.1 ≠ 0)) 20 0 (PRINTUINT 20 18446744073709551615) ∧
    CallInvariant (PRINTINT_entry (-9223372036854775808)) PRINTINT_body
      (fun s => decide (s.1 ≠ 0)) 20 (if (-9223372036854775808 : Int) < 0 then 1 else 0)
      (PRINTINT 20 (-9223372036854775808))) :=
  ⟨by decide, by decide, by decide,
    C10_call_invariant 20 18446744073709551615 (-9223372036854775808) (by decide) (by decide)
      (by decide)⟩

/-- C11: the digit loop of each of the four routines terminates on every input
of the routine's type.  The loop variable is non-negative on entry; every run
of the body divides it by 10, which makes it strictly smaller as long as it is
positive; the loop leaves with the variable at 0 after exactly `n` runs, with
`1 ≤ n ≤ 20` for `__PRINTU__`, `PRINTUINT` and `PRINTINT` and `1 ≤ n ≤ 19`
for `__PRINTI__`: any fuel of at least `n` returns the state after `n` runs,
any smaller fuel runs out. -/
theorem C11_digit_loops_terminate (u : Nat) (x : Int) (hu : inU64 u) (hx : inS64 x) :
    LoopTerminates (PRINTU_entry u) PRINTU_body (fun s => decide (s.1 ≠ 0))
      (fun (v : Nat) => (v : Int)) 20 ∧
    LoopTerminates (PRINTI_entry x) (PRINTI_body (decide (x < 0)))
      (fun s => decide (s.1 ≠ 0)) (fun (v : Int) => v) 19 ∧
    LoopTerminates (PRINTUINT_entry u) PRINTUINT_body (fun s => decide (s.1 ≠ 0))
      (fun (v : Nat) => (v : Int)) 20 ∧
    LoopTerminates (PRINTINT_entry x) PRINTINT_body (fun s => decide (s.1 ≠ 0))
      (fun (v : Nat) => (v : Int)) 20 := by
  have h1 := natText_length_U64 u hu
  have h3 := natText_length_S64 x hx
  refine ⟨?_, ?_, ?_, ?_⟩
  · exact loopTerminates_of (fun v => v) _ (fun _ => rfl) PRINTU_body _
      (fun v _ => v % 10 + 48) PRINTU_body_frameOf (fun _ _ => rfl) _ u (PRINTU_entry_eq u)
      20 h1 (by omega)
  · have hentry := PRINTI_entry_eq x
    rw [PRINTI_magnitude_eq x hx] at hentry
    have hm : (if x < 0 then -x - 1 else x).toNat < 10 ^ (18 + 1) := by
      unfold inS64 at hx
      split <;> omega
    have h2 := natText_length_le 18 _ hm
    exact loopTerminates_of (fun v => ((v : Nat) : Int)) _ (fun _ => rfl)
      (PRINTI_body (decide (x < 0))) _
      (fun v acc => v % 10 + 48 + (if decide (x < 0) = true ∧ acc.length = 1 then 1 else 0))
      (PRINTI_body_frameOf (decide (x < 0))) (fun w f => by simp) _ _ hentry 19 h2 (by omega)
  · exact loopTerminates_of (fun v => v) _ (fun _ => rfl) PRINTUINT_body _
      (fun v _ => v % 10 + 48) PRINTUINT_body_frameOf (fun _ _ => rfl) _ u
      (PRINTUINT_entry_eq u) 20 h1 (by omega)
  · have hentry := PRINTINT_entry_eq x
    rw [PRINTINT_uValue_eq x hx] at hentry
    exact loopTerminates_of (fun v => v) _ (fun _ => rfl) PRINTINT_body _
      (fun v _ => v % 10 + 48) PRINTINT_body_frameOf (fun _ _ => rfl) _ _ hentry
      20 (by omega) (by omega)

/-- Witness for C11 at `u = 18446744073709551615` and
`x = -9223372036854775808`. -/
theorem C11_digit_loops_terminate_witness :
    inU64 18446744073709551615 ∧ inS64 (-9223372036854775808) ∧
    (LoopTerminates (PRINTU_entry 18446744073709551615) PRINTU_body
      (fun s => decide (s.1 ≠ 0)) (fun (v : Nat) => (v : Int)) 20 ∧
    LoopTerminates (PRINTI_entry (-9223372036854775808))
      (PRINTI_body (decide ((-9223372036854775808 : Int) < 0)))
      (fun s => decide (s.1 ≠ 0)) (fun (v : Int) => v) 19 ∧
    LoopTerminates (PRINTUINT_entry 18446744073709551615) PRINTUINT_body
      (fun s => decide (s.1 ≠ 0)) (fun (v : Nat) => (v : Int)) 20 ∧
    LoopTerminates (PRINTINT_entry (-9223372036854775808)) PRINTINT_body
      (fun s => decide (s.1 ≠ 0)) (fun (v : Nat) => (v : Int)) 20) :=
  ⟨by decide, by decide,
    C11_digit_loops_terminate 18446744073709551615 (-9223372036854775808) (by decide)
      (by decide)⟩

/-- C12: the correction of `__PRINTI__` is applied once.  For every negative
signed 64-bit `x`, with `m = -x - 1`, the call returns with cell 30 holding
`'0' + m % 10 + 1`, and for every `j ≥ 1` with `m / 10 ^ j ≠ 0` cell `30 - j`
holds the uncorrected digit `'0' + (m / 10 ^ j) % 10`; the digit cells are
those of the decimal digits of `m` (`bufferSize` is their number plus 2).  For
every `x ≥ 0` the cell `30 - j` of each digit of `x` holds
`'0' + (x / 10 ^ j) % 10`, and `bufferSize` is the number of digits plus 1.
(Line 20 with `bufferSize == 1` tested before the post-increment.) -/
theorem C12_one_shot_correction (fuel : Nat) (x : Int) (hx : inS64 x) (hf : 20 ≤ fuel) :
    ∃ r, __PRINTI__ fuel x = some r ∧
      (x < 0 →
        r.frame.buffer[30]? = some (some ((-x - 1).toNat % 10 + 48 + 1)) ∧
        (∀ j, 1 ≤ j → (-x - 1).toNat / 10 ^ j ≠ 0 →
          r.frame.buffer[30 - j]? = some (some ((-x - 1).toNat / 10 ^ j % 10 + 48))) ∧
        r.frame.bufferSize = ((natText (-x - 1).toNat).length : Int) + 2) ∧
      (0 ≤ x →
        (∀ j, (j = 0 ∨ x.toNat / 10 ^ j ≠ 0) →
          r.frame.buffer[30 - j]? = some (some (x.toNat / 10 ^ j % 10 + 48))) ∧
        r.frame.bufferSize = ((natText x.toNat).length : Int) + 1) := by
  have hlen := PRINTI_text_length_S64 x hx
  have hlen' : (PRINTI_text x ++ [10]).length ≤ 32 := by simp; omega
  refine ⟨_, PRINTI_eq fuel x hx hf, ?_, ?_⟩
  · intro hneg
    have hrev := PRINTI_text_reverse_neg x hneg
    refine ⟨frameOf_buffer_reverse _ hlen' 1 _ hrev.1, ?_, ?_⟩
    · intro j hj hnz
      have h := frameOf_buffer_reverse _ hlen' (j + 1) _ (hrev.2 j hj hnz)
      have hidx : 31 - (j + 1) = 30 - j := by omega
      rw [hidx] at h
      exact h
    · have := PRINTI_digits_length_neg x hneg
      simp only [frameOf, PRINTI_text, hneg, if_true, List.length_append, List.length_cons,
        List.length_nil, this]
      omega
  · intro hpos
    have hneg : ¬ x < 0 := by omega
    have ht : PRINTI_text x = natText x.toNat := by simp [PRINTI_text, PRINTI_digits, hneg]
    rw [ht] at hlen' ⊢
    refine ⟨?_, ?_⟩
    · intro j hj
      have h := frameOf_buffer_reverse _ hlen' (j + 1) _ (natText_newline_reverse _ j hj)
      have hidx : 31 - (j + 1) = 30 - j := by omega
      rw [hidx] at h
      exact h
    · simp only [frameOf, List.length_append, List.length_cons, List.length_nil]
      omega

/-- Witness for C12 at `x = -128` with fuel 20. -/
theorem C12_one_shot_correction_witness :
    inS64 (-128) ∧ 20 ≤ 20 ∧
    (∃ r, __PRINTI__ 20 (-128) = some r ∧
      ((-128 : Int) < 0 →
        r.frame.buffer[30]? = some (some ((-(-128 : Int) - 1).toNat % 10 + 48 + 1)) ∧
        (∀ j, 1 ≤ j → (-(-128 : Int) - 1).toNat / 10 ^ j ≠ 0 →
          r.frame.buffer[30 - j]?
            = some (some ((-(-128 : Int) - 1).toNat / 10 ^ j % 10 + 48))) ∧
        r.frame.bufferSize = ((natText (-(-128 : Int) - 1).toNat).length : Int) + 2) ∧
      (0 ≤ (-128 : Int) →
        (∀ j, (j = 0 ∨ (-128 : Int).toNat / 10 ^ j ≠ 0) →
          r.frame.buffer[30 - j]? = some (some ((-128 : Int).toNat / 10 ^ j % 10 + 48))) ∧
        r.frame.bufferSize = ((natText (-128 : Int).toNat).length : Int) + 1)) :=
  ⟨by decide, by decide, C12_one_shot_correction 20 (-128) (by decide) (by decide)⟩

/-- C13 (fails on the code): the two signed routines do not emit the same
bytes on every input.  On `x = -10` `__PRINTI__` writes `-`, `:`, line feed,
while `PRINTINT` writes `-`, `1`, `0`, line feed. -/
theorem C13_signed_printers_differ_at_minus_ten (fuel : Nat) :
    ∃ r₁ r₂, __PRINTI__ (fuel + 2) (-10) = some r₁ ∧ PRINTINT (fuel + 2) (-10) = some r₂ ∧
      r₁.out = [45, 58, 10] ∧ r₂.out = [45, 49, 48, 10] ∧ r₁.out ≠ r₂.out :=
  ⟨_, _, rfl, rfl, rfl, rfl, by decide⟩

/-- C14: for every unsigned 64-bit `x` and any fuel of at least 20,
`__PRINTU__` (cursor an `unsigned short int`) and `PRINTUINT` (cursor an
`int`) both return and write the same bytes, the decimal text of `x` and a
line feed. -/
theorem C14_unsigned_printers_agree (fuel x : Nat) (hx : inU64 x) (hf : 20 ≤ fuel) :
    ∃ r₁ r₂, __PRINTU__ fuel x = some r₁ ∧ PRINTUINT fuel x = some r₂ ∧
      r₁.out = r₂.out ∧ r₁.out = natText x ++ [10] :=
  ⟨_, _, PRINTU_eq fuel x hx hf, PRINTUINT_eq fuel x hx hf, rfl, rfl⟩

/-- Witness for C14 at `x = 18446744073709551615` with fuel 20. -/
theorem C14_unsigned_printers_agree_witness :
    inU64 18446744073709551615 ∧ 20 ≤ 20 ∧
    (∃ r₁ r₂, __PRINTU__ 20 18446744073709551615 = some r₁ ∧
      PRINTUINT 20 18446744073709551615 = some r₂ ∧
      r₁.out = r₂.out ∧ r₁.out = natText 18446744073709551615 ++ [10]) :=
  ⟨by decide, by decide,
    C14_unsigned_printers_agree 20 18446744073709551615 (by decide) (by decide)⟩

/-- C15: on non-negative values the signed printers emit what the unsigned
ones emit.  For every signed 64-bit `x ≥ 0` and any fuel of at least 20,
`__PRINTI__` on `x` and `__PRINTU__` on `x` converted to unsigned 64-bit both
return and write the same bytes, and so do `PRINTINT` and `PRINTUINT`. -/
theorem C15_signed_matches_unsigned_on_nonneg (fuel : Nat) (x : Int) (hx : inS64 x)
    (h0 : 0 ≤ x) (hf : 20 ≤ fuel) :
    (∃ r₁ r₂, __PRINTI__ fuel x = some r₁ ∧ __PRINTU__ fuel (wrapU64 x) = some r₂ ∧
      r₁.out = r₂.out) ∧
    (∃ r₁ r₂, PRINTINT fuel x = some r₁ ∧ PRINTUINT fuel (wrapU64 x) = some r₂ ∧
      r₁.out = r₂.out) := by
  have hw : wrapU64 x = x.toNat := by
    unfold inS64 at hx
    unfold wrapU64
    omega
  have hu : inU64 x.toNat := by
    unfold inS64 at hx
    unfold inU64
    omega
  rw [hw]
  refine ⟨⟨_, _, PRINTI_eq fuel x hx hf, PRINTU_eq fuel _ hu hf, ?_⟩,
    ⟨_, _, PRINTINT_eq fuel x hx hf, PRINTUINT_eq fuel _ hu hf, ?_⟩⟩
  · simp only [PRINTI_text_nonneg x h0]
  · simp only [intText_nonneg x h0]

/-- Witness for C15 at `x = 9223372036854775807` with fuel 20. -/
theorem C15_signed_matches_unsigned_on_nonneg_witness :
    inS64 9223372036854775807 ∧ (0 : Int) ≤ 9223372036854775807 ∧ 20 ≤ 20 ∧
    ((∃ r₁ r₂, __PRINTI__ 20 9223372036854775807 = some r₁ ∧
      __PRINTU__ 20 (wrapU64 9223372036854775807) = some r₂ ∧ r₁.out = r₂.out) ∧
    (∃ r₁ r₂, PRINTINT 20 9223372036854775807 = some r₁ ∧
      PRINTUINT 20 (wrapU64 9223372036854775807) = some r₂ ∧ r₁.out = r₂.out)) :=
  ⟨by decide, by decide, by decide,
    C15_signed_matches_unsigned_on_nonneg 20 9223372036854775807 (by decide) (by decide)
      (by decide)⟩

/-- C16: the inputs on which `__PRINTI__` is right.  For every signed 64-bit
`x` and any fuel of at least 20 the call returns, and the bytes written are
the decimal text of `x` followed by a line feed if and only if `x ≥ 0` or `x`
is not a multiple of 10.  For a negative multiple of 10, with `m = -x - 1`,
the last digit of `m` is 9, the corrected byte is `'0' + 10 = 58` (`:`), and
the digits in front of it are those of `m / 10`, one less than `|x| / 10`: the
output is `-`, the decimal text of `m / 10` when that is not 0, `:`, line
feed.  (Products reduced to 64 bits; line 20 with `bufferSize == 1` tested
before the post-increment.) -/
theorem C16_PRINTI_correct_domain (fuel : Nat) (x : Int) (hx : inS64 x) (hf : 20 ≤ fuel) :
    ∃ r, __PRINTI__ fuel x = some r ∧
      (r.out = intText x ++ [10] ↔ (0 ≤ x ∨ x % 10 ≠ 0)) ∧
      (x < 0 → x % 10 = 0 →
        (-x - 1).toNat % 10 = 9 ∧ toChar (48 + 9 + 1) = 58 ∧
        x.natAbs / 10 = (-x - 1).toNat / 10 + 1 ∧
        r.out = 45 :: ((if (-x - 1).toNat / 10 = 0 then []
          else natText ((-x - 1).toNat / 10)) ++ [58, 10])) := by
  refine ⟨_, PRINTI_eq fuel x hx hf, ?_, ?_⟩
  · simp only [List.append_left_inj]
    exact PRINTI_text_eq_intText_iff x
  · intro hneg h10
    have h9 : (-x - 1).toNat % 10 = 9 := by omega
    refine ⟨h9, by decide, by omega, ?_⟩
    simp only [PRINTI_text_neg x hneg, h9]
    simp

/-- Witness for C16 at `x = -10` with fuel 20. -/
theorem C16_PRINTI_correct_domain_witness :
    inS64 (-10) ∧ 20 ≤ 20 ∧
    (∃ r, __PRINTI__ 20 (-10) = some r ∧
      (r.out = intText (-10) ++ [10] ↔ (0 ≤ (-10 : Int) ∨ (-10 : Int) % 10 ≠ 0)) ∧
      ((-10 : Int) < 0 → (-10 : Int) % 10 = 0 →
        (-(-10 : Int) - 1).toNat % 10 = 9 ∧ toChar (48 + 9 + 1) = 58 ∧
        (-10 : Int).natAbs / 10 = (-(-10 : Int) - 1).toNat / 10 + 1 ∧
        r.out = 45 :: ((if (-(-10 : Int) - 1).toNat / 10 = 0 then []
          else natText ((-(-10 : Int) - 1).toNat / 10)) ++ [58, 10]))) :=
  ⟨by decide, by decide, C16_PRINTI_correct_domain 20 (-10) (by decide) (by decide)⟩

/-- C17: the negation in `PRINTINT`.  For every negative signed 64-bit `x` the
exact product `x * -1` is a signed 64-bit value if and only if `x` is not
`-9223372036854775808`; and with the product reduced to 64 bits, the value
`uValue` obtained by the cast to unsigned is `|x|` for every signed 64-bit
`x`, in particular `9223372036854775808` for the minimum value. -/
theorem C17_PRINTINT_negation (x : Int) (hx : inS64 x) :
    (x < 0 → (inS64 (x * -1) ↔ x ≠ -9223372036854775808)) ∧
    PRINTINT_uValue x = x.natAbs ∧
    PRINTINT_uValue (-9223372036854775808) = 9223372036854775808 := by
  refine ⟨?_, PRINTINT_uValue_eq x hx, by decide⟩
  intro hneg
  unfold inS64 at hx ⊢
  constructor
  · intro h; omega
  · intro h; omega

/-- Witness for C17 at the minimum value `x = -9223372036854775808`. -/
theorem C17_PRINTINT_negation_witness :
    inS64 (-9223372036854775808) ∧
    (((-9223372036854775808 : Int) < 0 →
      (inS64 ((-9223372036854775808 : Int) * -1)
        ↔ (-9223372036854775808 : Int) ≠ -9223372036854775808)) ∧
    PRINTINT_uValue (-9223372036854775808) = (-9223372036854775808 : Int).natAbs ∧
    PRINTINT_uValue (-9223372036854775808) = 9223372036854775808) :=
  ⟨by decide, C17_PRINTINT_negation (-9223372036854775808) (by decide)⟩

end Ember
